import Mathlib

/-!
Verification development for the polymarket-bot trading engine.

Shallow embedding of the decision/control core:
  * `core/models.py`        — enums, `Market`, `Position`, `BotStats`
  * `exchange/websocket_feed.py` — `OrderbookState` (local book replica)
  * `core/trading_engine.py` — `TradingEngine` entry/exit logic
  * `telegram/bot.py`       — `cmd_pausemarket` (pause flag mutation)

Numeric values (Python floats) are modelled as exact rationals; Python's
`round(x, n)` is modelled as round-half-to-even at `n` decimal places.
Wall-clock reads (`datetime.utcnow`) are modelled by an explicit `now`
parameter; one evaluation pass uses a single `now`.  The REST gateway
(`place_limit_order`) is modelled as an oracle: an ordered list of
optional responses, consumed one per order call.
-/

namespace PolymarketBot

/-- Round-half-to-even to the nearest integer (Python `round` semantics
over exact rationals). -/
def roundHalfEven (x : ℚ) : ℤ :=
  let f : ℤ := Int.floor x
  let frac : ℚ := x - f
  if frac < 1/2 then f
  else if 1/2 < frac then f + 1
  else if f % 2 = 0 then f else f + 1

/-- Python `round(x, n)`: round to `n` decimal places, ties to even. -/
def pyRound (x : ℚ) (n : ℕ) : ℚ :=
  (roundHalfEven (x * 10 ^ n) : ℚ) / 10 ^ n

/-- Truncation toward −∞ at `n` decimal places (used to state what
"floor-rounded to `n` decimals" would mean; the source uses `round`). -/
def floorDecimals (x : ℚ) (n : ℕ) : ℚ :=
  ((Int.floor (x * 10 ^ n) : ℤ) : ℚ) / 10 ^ n

/-- `m[k] = v` on an association list (Python dict assignment): replace the
value at an existing key, else append a new entry. -/
def alistSet {α β : Type} [DecidableEq α] (m : List (α × β)) (k : α) (v : β) :
    List (α × β) :=
  if m.any (fun x => x.1 = k) then
    m.map (fun x => if x.1 = k then (k, v) else x)
  else
    m ++ [(k, v)]

/-- `m.pop(k, None)` / `del m[k]` on an association list: drop the key. -/
def alistPop {α β : Type} [DecidableEq α] (m : List (α × β)) (k : α) :
    List (α × β) :=
  m.filter (fun x => x.1 ≠ k)

/-- `m.get(k)` on an association list. -/
def alistGet? {α β : Type} [DecidableEq α] (m : List (α × β)) (k : α) :
    Option β :=
  (m.find? (fun x => x.1 = k)).map (fun x => x.2)

/-- `exchange/websocket_feed.py` `OrderbookState`: two price → size maps.
(The `last_update` monotonic timestamp is not tracked: no claim reads it.) -/
structure OrderbookState where
  bids : List (ℚ × ℚ)
  asks : List (ℚ × ℚ)
  deriving DecidableEq

/-- Character-wise uppercase (extensionally `String.toUpper`, restated
over the character list so it evaluates by reduction). -/
def strUpper (s : String) : String :=
  ⟨s.data.map Char.toUpper⟩

/-- `side.upper() == "BUY"` in `OrderbookState.apply_delta`. -/
def sideIsBuy (side : String) : Bool :=
  strUpper side = "BUY"

/-- `OrderbookState.apply_delta`: a size of exactly 0 removes the level,
any other size is stored verbatim. -/
def OrderbookState.apply_delta (b : OrderbookState) (side : String)
    (price size : ℚ) : OrderbookState :=
  if sideIsBuy side then
    if size = 0 then { b with bids := alistPop b.bids price }
    else { b with bids := alistSet b.bids price size }
  else
    if size = 0 then { b with asks := alistPop b.asks price }
    else { b with asks := alistSet b.asks price size }

/-- Level loading in `PolymarketWebSocketFeed._handle_book_snapshot`:
each `(price, size)` with `size > 0` is stored; others are skipped. -/
def loadLevels : List (ℚ × ℚ) → List (ℚ × ℚ) → List (ℚ × ℚ)
  | [], acc => acc
  | (p, s) :: rest, acc =>
      loadLevels rest (if s > 0 then alistSet acc p s else acc)

/-- `_handle_book_snapshot`: clear both sides, then repopulate from the
snapshot message keeping only levels of positive size. -/
def applySnapshot (bids asks : List (ℚ × ℚ)) : OrderbookState :=
  { bids := loadLevels bids [], asks := loadLevels asks [] }

/-- `OrderbookState.best_bid`: max bid price, `0.0` on an empty side. -/
def OrderbookState.best_bid (b : OrderbookState) : ℚ :=
  match b.bids with
  | [] => 0
  | x :: xs => xs.foldl (fun a y => max a y.1) x.1

/-- `OrderbookState.best_ask`: min ask price, `1.0` on an empty side. -/
def OrderbookState.best_ask (b : OrderbookState) : ℚ :=
  match b.asks with
  | [] => 1
  | x :: xs => xs.foldl (fun a y => min a y.1) x.1

/-- `OrderbookState.mid_price`. -/
def OrderbookState.mid_price (b : OrderbookState) : ℚ :=
  (b.best_bid + b.best_ask) / 2

/-- `OrderbookState.spread`. -/
def OrderbookState.spread (b : OrderbookState) : ℚ :=
  b.best_ask - b.best_bid

/-- `sum(p * s for p, s in top)`. -/
def sumLevels (l : List (ℚ × ℚ)) : ℚ :=
  l.foldl (fun a x => a + x.1 * x.2) 0

/-- `OrderbookState.bid_liquidity(levels)`: price-descending sort, take the
best `levels`, sum `price × size`.  (Dict keys are unique, so sorting the
pairs lexicographically as Python does coincides with sorting by price.) -/
def OrderbookState.bid_liquidity (b : OrderbookState) (levels : ℕ) : ℚ :=
  sumLevels ((b.bids.insertionSort (fun x y => y.1 ≤ x.1)).take levels)

/-- `OrderbookState.ask_liquidity(levels)`: price-ascending sort. -/
def OrderbookState.ask_liquidity (b : OrderbookState) (levels : ℕ) : ℚ :=
  sumLevels ((b.asks.insertionSort (fun x y => x.1 ≤ y.1)).take levels)

/-- Python runtime errors surfaced by the embedded code. -/
inductive PyError
  | attributeErrorSpreadPct
  deriving DecidableEq

/-- The engine reads `book.spread_pct` on an `OrderbookState`
(`trading_engine.py` lines 276 and 437), but `OrderbookState` in
`websocket_feed.py` defines no `spread_pct` member — only the unrelated
`OrderbookSnapshot` dataclass in `core/models.py` does.  The attribute
lookup therefore raises `AttributeError`; this definition embeds that
lookup. -/
def OrderbookState.spread_pct (_b : OrderbookState) : Except PyError ℚ :=
  .error .attributeErrorSpreadPct

/-- `core/models.py` `PositionStatus`. -/
inductive PositionStatus
  | pending_entry
  | open_
  | pending_exit
  | closed
  | failed
  | paper
  deriving DecidableEq

/-- `core/models.py` `ExitReason`. -/
inductive ExitReason
  | profit_target
  | forced_time
  | safety_liquidity
  | safety_spread
  | safety_stall
  | manual
  | market_paused
  deriving DecidableEq

/-- `core/models.py` `Market` (times are absolute seconds). -/
structure Market where
  market_id : String
  token_id_yes : String
  token_id_no : String
  resolution_time : ℚ
  paused : Bool
  deriving DecidableEq

/-- `Market.seconds_to_close`, recomputed from the clock on every read. -/
def Market.seconds_to_close (m : Market) (now : ℚ) : ℚ :=
  m.resolution_time - now

/-- `core/models.py` `Position`. -/
structure Position where
  position_id : String
  market_id : String
  token_id : String
  outcome : String
  entry_price : ℚ
  shares : ℚ
  entry_time : ℚ
  entry_order_id : Option String
  exit_price : Option ℚ
  exit_time : Option ℚ
  exit_order_id : Option String
  exit_reason : Option ExitReason
  status : PositionStatus
  paper : Bool
  deriving DecidableEq

/-- `Position.cost_basis`. -/
def Position.cost_basis (p : Position) : ℚ :=
  p.entry_price * p.shares

/-- `Position.realized_pnl`. -/
def Position.realized_pnl (p : Position) : Option ℚ :=
  match p.exit_price with
  | none => none
  | some e => some ((e - p.entry_price) * p.shares)

/-- `core/models.py` `BotStats` (the `start_time` field is omitted: it is
never mutated and no claim reads it). -/
structure BotStats where
  total_trades : ℕ
  winning_trades : ℕ
  losing_trades : ℕ
  total_pnl_usd : ℚ
  total_volume_usd : ℚ
  forced_exits : ℕ
  safety_exits : ℕ
  deriving DecidableEq

/-- `BotStats.win_rate`. -/
def BotStats.win_rate (s : BotStats) : ℚ :=
  if s.total_trades = 0 then 0
  else (s.winning_trades : ℚ) / (s.total_trades : ℚ) * 100

/-- The fields of `config.py` `TradingConfig` read by the engine. -/
structure TradingConfig where
  buy_probability_threshold : ℚ
  sell_probability_target : ℚ
  max_position_size_usd : ℚ
  max_concurrent_positions : ℕ
  forced_exit_seconds_before_close : ℚ
  safety_exit_liquidity_threshold : ℚ
  max_spread_pct : ℚ
  slippage_tolerance : ℚ
  paper_trading : Bool
  deriving DecidableEq

/-- A gateway response dict: `place_limit_order` results with the keys the
engine reads (`price`, `filled`, `order_id`, `orderID`); each may be
absent. -/
structure OrderResp where
  price : Option ℚ
  filled : Option ℚ
  order_id : Option String
  orderID : Option String
  deriving DecidableEq

/-- The gateway oracle: the ordered list of results the REST client will
return, one per `place_limit_order` call; `none` is a null response (all
retries inside the client exhausted).  An exhausted oracle answers `none`. -/
structure Gateway where
  responses : List (Option OrderResp)
  deriving DecidableEq

/-- Consume the next gateway response. -/
def Gateway.next (g : Gateway) : Option OrderResp × Gateway :=
  match g.responses with
  | [] => (none, { responses := [] })
  | r :: rest => (r, { responses := rest })

/-- Externally visible effects of one engine operation: order submissions
and notification-callback invocations. -/
inductive Event
  | order_placed (token_id : String) (side : String) (price : ℚ) (size : ℚ)
  | position_opened_notice (p : Position)
  | position_closed_notice (p : Position)
  | alert (reason : ExitReason)
  deriving DecidableEq

/-- Prices of the orders submitted in an event list, in submission order. -/
def orderPrices : List Event → List ℚ
  | [] => []
  | Event.order_placed _ _ p _ :: rest => p :: orderPrices rest
  | _ :: rest => orderPrices rest

/-- The alert notifications in an event list. -/
def alertEvents : List Event → List ExitReason
  | [] => []
  | Event.alert r :: rest => r :: alertEvents rest
  | _ :: rest => alertEvents rest

/-- The mutable state owned by `TradingEngine`. -/
structure EngineState where
  active_markets : List (String × Market)
  open_positions : List (String × Position)
  closed_positions : List Position
  stats : BotStats
  deriving DecidableEq

/-- `TradingEngine._passes_safety_checks`: spread check first, then top-5
ask-side liquidity.  The spread check reads `book.spread_pct`, which does
not exist on `OrderbookState`, so the call raises before deciding
anything. -/
def passes_safety_checks (cfg : TradingConfig) (book : OrderbookState) :
    Except PyError Bool :=
  match book.spread_pct with
  | .error e => .error e
  | .ok sp =>
    if cfg.max_spread_pct < sp then .ok false
    else if book.ask_liquidity 5 < cfg.safety_exit_liquidity_threshold then .ok false
    else .ok true

/-- `TradingEngine._determine_exit_reason`: the priority-ordered exit
decision.  Checks 1–3 (forced time, early close, bid liquidity) are
decided first; check 4 reads `book.spread_pct` and raises. -/
def determine_exit_reason (cfg : TradingConfig) (pos : Position)
    (market : Market) (book : OrderbookState) (now : ℚ) :
    Except PyError (Option ExitReason) :=
  let current_bid := book.best_bid
  let seconds_left := market.seconds_to_close now
  if seconds_left ≤ cfg.forced_exit_seconds_before_close then
    .ok (some ExitReason.forced_time)
  else if seconds_left ≤ 0 then
    .ok (some ExitReason.forced_time)
  else if book.bid_liquidity 5 < cfg.safety_exit_liquidity_threshold then
    .ok (some ExitReason.safety_liquidity)
  else
    match book.spread_pct with
    | .error e => .error e
    | .ok sp =>
      if cfg.max_spread_pct < sp then .ok (some ExitReason.safety_spread)
      else if current_bid < pos.entry_price * (3/10) ∧ seconds_left < 60 then
        .ok (some ExitReason.safety_stall)
      else if cfg.sell_probability_target ≤ current_bid then
        .ok (some ExitReason.profit_target)
      else .ok none

/-- The stats block of `TradingEngine._exit_position` (source lines
352–363): bump trade count and PnL, then the forced/safety counter, then
the win/loss counter. -/
def statsAfterClose (s : BotStats) (reason : ExitReason) (pnl : ℚ) : BotStats :=
  let s1 := { s with total_trades := s.total_trades + 1,
                     total_pnl_usd := s.total_pnl_usd + pnl }
  let s2 :=
    if reason = ExitReason.forced_time then
      { s1 with forced_exits := s1.forced_exits + 1 }
    else if reason = ExitReason.safety_liquidity ∨ reason = ExitReason.safety_spread
            ∨ reason = ExitReason.safety_stall then
      { s1 with safety_exits := s1.safety_exits + 1 }
    else s1
  if 0 < pnl then { s2 with winning_trades := s2.winning_trades + 1 }
  else { s2 with losing_trades := s2.losing_trades + 1 }

/-- The sell-price selection of `_exit_position` (source lines 311–316):
best bid less slippage when a book is at hand, else the half-entry
guaranteed-fill fallback; floored at 0.01 and rounded to 4 decimals. -/
def exit_sell_price (cfg : TradingConfig) (pos : Position)
    (book : Option OrderbookState) : ℚ :=
  match book with
  | some b => pyRound (max (b.best_bid * (1 - cfg.slippage_tolerance)) (1/100)) 4
  | none => pyRound (max (pos.entry_price * (1/2)) (1/100)) 4

/-- `TradingEngine._exit_position`: sell at bid minus slippage (or the
half-entry fallback), retry once at 90% of the computed price on a null
response, then unconditionally close the position, record stats, move it
to the closed list, and fire notifications (alert only for
`safety_liquidity` / `safety_spread`, per line 378 of the source). -/
def exit_position (cfg : TradingConfig) (st : EngineState) (pos : Position)
    (reason : ExitReason) (book : Option OrderbookState) (now : ℚ)
    (gw : Gateway) : EngineState × Gateway × List Event :=
  if pos.status = PositionStatus.closed then (st, gw, [])
  else
    let sell_price0 : ℚ := exit_sell_price cfg pos book
    let (resp0, gw0) := gw.next
    let (resp, sell_price, gw1, orderEvents) :=
      match resp0 with
      | some r =>
          (some r, sell_price0, gw0,
           [Event.order_placed pos.token_id ("SELL") sell_price0 pos.shares])
      | none =>
          let retry_price := pyRound (sell_price0 * (9/10)) 4
          let (resp1, gwR) := gw0.next
          (resp1, retry_price, gwR,
           [Event.order_placed pos.token_id ("SELL") sell_price0 pos.shares,
            Event.order_placed pos.token_id ("SELL") retry_price pos.shares])
    let filled_exit : ℚ :=
      match resp with
      | some r => r.price.getD sell_price
      | none => sell_price
    let pos' : Position :=
      { pos with exit_price := some filled_exit,
                 exit_time := some now,
                 exit_order_id := (match resp with | some r => r.order_id | none => none),
                 exit_reason := some reason,
                 status := PositionStatus.closed }
    let pnl : ℚ := (pos'.realized_pnl).getD 0
    let st' : EngineState :=
      { st with open_positions := alistPop st.open_positions pos.position_id,
                closed_positions := st.closed_positions ++ [pos'],
                stats := statsAfterClose st.stats reason pnl }
    let alerts : List Event :=
      if reason = ExitReason.safety_liquidity ∨ reason = ExitReason.safety_spread then
        [Event.alert reason]
      else []
    (st', gw1, orderEvents ++ [Event.position_closed_notice pos'] ++ alerts)

/-- Body of the per-position loop in
`TradingEngine._check_exit_conditions_for_token`. -/
def check_exit_step (cfg : TradingConfig) (token_id : String)
    (book : OrderbookState) (now : ℚ) (st : EngineState) (gw : Gateway)
    (pos : Position) : Except PyError (EngineState × Gateway × List Event) :=
  if pos.token_id ≠ token_id then .ok (st, gw, [])
  else if pos.status = PositionStatus.pending_exit ∨ pos.status = PositionStatus.closed then
    .ok (st, gw, [])
  else
    match alistGet? st.active_markets pos.market_id with
    | none => .ok (st, gw, [])
    | some market =>
      match determine_exit_reason cfg pos market book now with
      | .error e => .error e
      | .ok none => .ok (st, gw, [])
      | .ok (some r) => .ok (exit_position cfg st pos r (some book) now gw)

/-- The per-tick exit loop over a snapshot of the open positions.  An
uncaught exception aborts the loop: mutations already made persist, the
remaining positions are not examined, and the error is reported. -/
def check_exit_go (cfg : TradingConfig) (token_id : String)
    (book : OrderbookState) (now : ℚ) :
    List Position → EngineState → Gateway → List Event →
    (EngineState × Gateway × List Event) × Option PyError
  | [], st, gw, evs => ((st, gw, evs), none)
  | p :: rest, st, gw, evs =>
    match check_exit_step cfg token_id book now st gw p with
    | .error e => ((st, gw, evs), some e)
    | .ok (st', gw', evs') => check_exit_go cfg token_id book now rest st' gw' (evs ++ evs')

/-- `TradingEngine._check_exit_conditions_for_token`. -/
def check_exit_conditions_for_token (cfg : TradingConfig) (st : EngineState)
    (token_id : String) (book : OrderbookState) (now : ℚ) (gw : Gateway) :
    (EngineState × Gateway × List Event) × Option PyError :=
  check_exit_go cfg token_id book now (st.open_positions.map Prod.snd) st gw []

/-- Body of the per-position loop in `TradingEngine._position_monitor_loop`
(one position, one timer pass). -/
def monitor_step (cfg : TradingConfig) (now : ℚ) (st : EngineState)
    (gw : Gateway) (pos : Position) : EngineState × Gateway × List Event :=
  if pos.status = PositionStatus.pending_exit then (st, gw, [])
  else
    match alistGet? st.active_markets pos.market_id with
    | none => exit_position cfg st pos ExitReason.forced_time none now gw
    | some market =>
      let seconds_left := market.seconds_to_close now
      if seconds_left ≤ cfg.forced_exit_seconds_before_close then
        exit_position cfg st pos ExitReason.forced_time none now gw
      else if seconds_left < 0 then
        exit_position cfg st pos ExitReason.forced_time none now gw
      else (st, gw, [])

/-- The timer loop body over a snapshot of the open positions. -/
def monitor_go (cfg : TradingConfig) (now : ℚ) :
    List Position → EngineState → Gateway → List Event →
    EngineState × Gateway × List Event
  | [], st, gw, evs => (st, gw, evs)
  | p :: rest, st, gw, evs =>
    let r := monitor_step cfg now st gw p
    monitor_go cfg now rest r.1 r.2.1 (evs ++ r.2.2)

/-- One pass of `TradingEngine._position_monitor_loop` at time `now`. -/
def position_monitor_pass (cfg : TradingConfig) (now : ℚ) (st : EngineState)
    (gw : Gateway) : EngineState × Gateway × List Event :=
  monitor_go cfg now (st.open_positions.map Prod.snd) st gw []

/-- `TradingEngine._find_market_by_token`. -/
def find_market_by_token : List (String × Market) → String → Option (Market × String)
  | [], _ => none
  | (_, m) :: rest, token_id =>
    if m.token_id_yes = token_id then some (m, "YES")
    else if m.token_id_no = token_id then some (m, "NO")
    else find_market_by_token rest token_id

/-- `TradingEngine._has_position_in_market`. -/
def has_position_in_market (st : EngineState) (mid : String) : Bool :=
  st.open_positions.any (fun kv => kv.2.market_id = mid)

/-- `TradingEngine._enter_position`: submit the BUY, and on a response with
positive fill create the position (recording total volume) and fire the
opened notification.  `newId` stands for the generated UUID. -/
def enter_position (cfg : TradingConfig) (st : EngineState) (market : Market)
    (token_id outcome : String) (ask_price shares : ℚ) (now : ℚ)
    (gw : Gateway) (newId : String) : EngineState × Gateway × List Event :=
  let limit_price := pyRound (min (ask_price * (1 + cfg.slippage_tolerance)) (99/100)) 4
  let (resp, gw') := gw.next
  let buyEvent := Event.order_placed token_id ("BUY") limit_price shares
  match resp with
  | none => (st, gw', [buyEvent])
  | some r =>
    let filled_price := r.price.getD limit_price
    let filled_shares := r.filled.getD shares
    if filled_shares ≤ 0 then (st, gw', [buyEvent])
    else
      let position : Position :=
        { position_id := newId,
          market_id := market.market_id,
          token_id := token_id,
          outcome := outcome,
          entry_price := filled_price,
          shares := filled_shares,
          entry_time := now,
          entry_order_id := (match r.order_id with | some i => some i | none => r.orderID),
          exit_price := none, exit_time := none, exit_order_id := none,
          exit_reason := none,
          status := if cfg.paper_trading then PositionStatus.paper else PositionStatus.open_,
          paper := cfg.paper_trading }
      let st' : EngineState :=
        { st with open_positions := alistSet st.open_positions newId position,
                  stats := { st.stats with
                             total_volume_usd := st.stats.total_volume_usd + position.cost_basis } }
      (st', gw', [buyEvent, Event.position_opened_notice position])

/-- `TradingEngine._evaluate_entry`: the guard chain, the safety gate, the
sizing, and the order submission. -/
def evaluate_entry (cfg : TradingConfig) (st : EngineState) (token_id : String)
    (book : OrderbookState) (now : ℚ) (gw : Gateway) (newId : String) :
    Except PyError (EngineState × Gateway × List Event) :=
  match find_market_by_token st.active_markets token_id with
  | none => .ok (st, gw, [])
  | some (market, outcome) =>
    if market.paused then .ok (st, gw, [])
    else
      let seconds_left := market.seconds_to_close now
      if seconds_left < cfg.forced_exit_seconds_before_close + 30 then .ok (st, gw, [])
      else if has_position_in_market st market.market_id then .ok (st, gw, [])
      else if cfg.max_concurrent_positions ≤ st.open_positions.length then .ok (st, gw, [])
      else
        let ask := book.best_ask
        if ask ≤ 0 ∨ cfg.buy_probability_threshold < ask then .ok (st, gw, [])
        else
          match passes_safety_checks cfg book with
          | .error e => .error e
          | .ok safe =>
            if ¬ safe then .ok (st, gw, [])
            else
              let shares := pyRound (cfg.max_position_size_usd / ask) 2
              if shares ≤ 0 then .ok (st, gw, [])
              else .ok (enter_position cfg st market token_id outcome ask shares now gw newId)

/-- `TradingEngine.on_price_update`: exit checks first, then entry
evaluation; an exception from either aborts the handler with the
mutations already made. -/
def on_price_update (cfg : TradingConfig) (st : EngineState) (token_id : String)
    (book : OrderbookState) (now : ℚ) (gw : Gateway) (newId : String) :
    (EngineState × Gateway × List Event) × Option PyError :=
  match check_exit_conditions_for_token cfg st token_id book now gw with
  | (r, some e) => (r, some e)
  | ((st1, gw1, evs), none) =>
    match evaluate_entry cfg st1 token_id book now gw1 newId with
    | .error e => ((st1, gw1, evs), some e)
    | .ok (st2, gw2, evs2) => ((st2, gw2, evs ++ evs2), none)

/-- `TradingEngine.register_market`. -/
def register_market (st : EngineState) (m : Market) : EngineState :=
  { st with active_markets := alistSet st.active_markets m.market_id m }

/-- `TradingEngine.remove_market`. -/
def remove_market (st : EngineState) (mid : String) : EngineState :=
  { st with active_markets := alistPop st.active_markets mid }

/-- `telegram/bot.py` `cmd_pausemarket`: set the `paused` flag of a tracked
market; unknown ids leave the state unchanged. -/
def cmd_pausemarket (st : EngineState) (mid : String) : EngineState :=
  match alistGet? st.active_markets mid with
  | none => st
  | some m =>
    { st with active_markets := alistSet st.active_markets mid { m with paused := true } }

/-- The force-exit loop of `TradingEngine.stop` over a snapshot of the open
positions (reason `manual`). -/
def stop_go (cfg : TradingConfig) (now : ℚ) :
    List Position → EngineState → Gateway → List Event →
    EngineState × Gateway × List Event
  | [], st, gw, evs => (st, gw, evs)
  | p :: rest, st, gw, evs =>
    let r := exit_position cfg st p ExitReason.manual none now gw
    stop_go cfg now rest r.1 r.2.1 (evs ++ r.2.2)

/-- `TradingEngine.stop`: force-exit every open position. -/
def stop_engine (cfg : TradingConfig) (now : ℚ) (st : EngineState)
    (gw : Gateway) : EngineState × Gateway × List Event :=
  stop_go cfg now (st.open_positions.map Prod.snd) st gw []

/-- The operations that mutate engine state, for stating reachability
invariants. -/
inductive EngineOp
  | register (m : Market)
  | remove (market_id : String)
  | pause (market_id : String)
  | price_update (token_id : String) (book : OrderbookState) (now : ℚ) (newId : String)
  | monitor (now : ℚ)
  | stopAll (now : ℚ)
  deriving DecidableEq

/-- One engine operation applied to a state and a gateway oracle. -/
def apply_op (cfg : TradingConfig) (st : EngineState) (gw : Gateway) :
    EngineOp → EngineState × Gateway
  | .register m => (register_market st m, gw)
  | .remove mid => (remove_market st mid, gw)
  | .pause mid => (cmd_pausemarket st mid, gw)
  | .price_update token book now newId =>
      let r := on_price_update cfg st token book now gw newId
      (r.1.1, r.1.2.1)
  | .monitor now =>
      let r := position_monitor_pass cfg now st gw
      (r.1, r.2.1)
  | .stopAll now =>
      let r := stop_engine cfg now st gw
      (r.1, r.2.1)

/-! ### Concrete fixtures (default configuration of `config.py`, sample
markets, positions and books) used by counterexamples and witnesses. -/

/-- The default `TradingConfig` values from `config.py`. -/
def cfg0 : TradingConfig :=
  { buy_probability_threshold := 3/100,
    sell_probability_target := 6/100,
    max_position_size_usd := 10,
    max_concurrent_positions := 3,
    forced_exit_seconds_before_close := 25,
    safety_exit_liquidity_threshold := 50,
    max_spread_pct := 3/200,
    slippage_tolerance := 1/200,
    paper_trading := true }

/-- A sample market resolving at absolute time 1000. -/
def mA : Market :=
  { market_id := "m1", token_id_yes := "tokY", token_id_no := "tokN",
    resolution_time := 1000, paused := false }

/-- A sample open position in `mA`. -/
def posA : Position :=
  { position_id := "p1", market_id := "m1", token_id := "tokY", outcome := "YES",
    entry_price := 1/50, shares := 500, entry_time := 0, entry_order_id := none,
    exit_price := none, exit_time := none, exit_order_id := none, exit_reason := none,
    status := PositionStatus.open_, paper := true }

/-- A deep two-sided book: top-5 liquidity 500 on each side. -/
def bookA : OrderbookState :=
  { bids := [(1/2, 1000)], asks := [(13/25, 1000)] }

/-- Engine state holding `mA` and the open position `posA`. -/
def stA : EngineState :=
  { active_markets := [(("m1" : String), mA)],
    open_positions := [(("p1" : String), posA)],
    closed_positions := [],
    stats := ⟨0, 0, 0, 0, 0, 0, 0⟩ }

/-- Engine state holding `mA` and no position (entry-side fixture). -/
def stE : EngineState :=
  { active_markets := [(("m1" : String), mA)],
    open_positions := [],
    closed_positions := [],
    stats := ⟨0, 0, 0, 0, 0, 0, 0⟩ }

/-- A qualifying entry book: best ask 0.02 ≤ threshold 0.03, tight spread,
deep on both sides. -/
def bookE : OrderbookState :=
  { bids := [(199/10000, 10000)], asks := [(1/50, 10000)] }

/-- A gateway response reporting a full fill at the requested values of the
`bookE` entry (price 0.02, 500 shares). -/
def respFillE : OrderResp :=
  { price := some (1/50), filled := some 500, order_id := some "o1", orderID := none }

/-! ### C4 — the pre-trade safety gate -/

/-- C4: `_passes_safety_checks` is claimed to be a total predicate deciding
`spread_pct ≤ max ∧ ask-liquidity ≥ floor`.  In fact its first check reads
`book.spread_pct`, an attribute `OrderbookState` does not define, so every
single call raises `AttributeError` and no call ever returns a boolean. -/
theorem passes_safety_checks_always_raises :
    ∀ (cfg : TradingConfig) (book : OrderbookState),
      passes_safety_checks cfg book = Except.error PyError.attributeErrorSpreadPct := by
  intro cfg book
  rfl

/-! ### C2 — exit-reason priority order -/

/-- C2: the first three checks of `_determine_exit_reason` fire in order
(a state meeting both the forced-time and profit-target conditions yields
`forced_time`), but whenever evaluation reaches the `safety_spread` check
— e.g. seconds_left = 1000 > 25 with healthy bid liquidity 500 ≥ 50 — the
function raises `AttributeError` instead of evaluating `spread_pct`,
returning a later reason, or returning no reason. -/
theorem determine_exit_reason_spread_bug :
    determine_exit_reason cfg0 posA mA bookA 0
        = Except.error PyError.attributeErrorSpreadPct
      ∧ determine_exit_reason cfg0 posA mA bookA 980
        = Except.ok (some ExitReason.forced_time)
      ∧ cfg0.sell_probability_target ≤ bookA.best_bid := by
  refine ⟨?_, ?_, ?_⟩
  · norm_num [determine_exit_reason, Market.seconds_to_close, cfg0, posA, mA, bookA,
      OrderbookState.best_bid, OrderbookState.bid_liquidity, sumLevels,
      List.insertionSort, List.orderedInsert, OrderbookState.spread_pct]
  · norm_num [determine_exit_reason, Market.seconds_to_close, cfg0, posA, mA, bookA,
      OrderbookState.best_bid]
  · norm_num [cfg0, bookA, OrderbookState.best_bid]

/-! ### C5 — order sizing -/

/-- C5: on a fully qualifying entry (registered market 1000s from close,
best ask 0.02 ≤ threshold 0.03, no open position, spare capacity, budget
\$10) the claim expects a BUY order of `floor2(10/0.02) = 500.00` shares.
The code instead raises `AttributeError` inside `_passes_safety_checks`
before the sizing code runs, so no order is submitted at all; moreover the
(unreached) sizing expression uses Python `round` — half-to-even — which
differs from floor-rounding, e.g. at ask 0.0299. -/
theorem order_sizing_never_reached :
    evaluate_entry cfg0 stE ("tokY") bookE 0 ⟨[some respFillE]⟩ ("p9")
        = Except.error PyError.attributeErrorSpreadPct
      ∧ pyRound ((10 : ℚ) / (299/10000)) 2 = 33445/100
      ∧ floorDecimals ((10 : ℚ) / (299/10000)) 2 = 8361/25
      ∧ pyRound ((10 : ℚ) / (299/10000)) 2 ≠ floorDecimals ((10 : ℚ) / (299/10000)) 2 := by
  refine ⟨?_, ?_, ?_, ?_⟩
  · norm_num [evaluate_entry, find_market_by_token, has_position_in_market,
      passes_safety_checks, OrderbookState.spread_pct, Market.seconds_to_close,
      OrderbookState.best_ask, cfg0, stE, mA, bookE]
  · norm_num [pyRound, roundHalfEven]
  · norm_num [floorDecimals]
  · norm_num [pyRound, roundHalfEven, floorDecimals]

/-! ### Helper lemmas about the embedded operations -/

theorem alertEvents_append (a b : List Event) :
    alertEvents (a ++ b) = alertEvents a ++ alertEvents b := by
  induction a with
  | nil => rfl
  | cons x xs ih => cases x <;> simp [alertEvents, ih]

theorem orderPrices_append (a b : List Event) :
    orderPrices (a ++ b) = orderPrices a ++ orderPrices b := by
  induction a with
  | nil => rfl
  | cons x xs ih => cases x <;> simp [orderPrices, ih]

theorem alistGet?_alistPop {α β : Type} [DecidableEq α] (m : List (α × β)) (k : α) :
    alistGet? (alistPop m k) k = none := by
  have hfind : (alistPop m k).find? (fun x => x.1 = k) = none := by
    rw [List.find?_eq_none]
    intro x hx
    have h2 := List.of_mem_filter hx
    simpa using h2
  simp [alistGet?, hfind]

/-- `_exit_position` on an already-`CLOSED` position: complete no-op. -/
theorem exit_position_skip (cfg : TradingConfig) (st : EngineState) (pos : Position)
    (reason : ExitReason) (book : Option OrderbookState) (now : ℚ) (gw : Gateway)
    (h : pos.status = PositionStatus.closed) :
    exit_position cfg st pos reason book now gw = (st, gw, []) := by
  unfold exit_position
  rw [if_pos h]

/-- Shape of `_exit_position` on a non-closed position: the key is removed
from the open map, one closed-with-this-reason record is appended, and
stats move by `statsAfterClose`. -/
theorem exit_position_spec (cfg : TradingConfig) (st : EngineState) (pos : Position)
    (reason : ExitReason) (book : Option OrderbookState) (now : ℚ) (gw : Gateway)
    (h : pos.status ≠ PositionStatus.closed) :
    ∃ (pos' : Position) (q : ℚ),
      (exit_position cfg st pos reason book now gw).1 =
        { active_markets := st.active_markets,
          open_positions := alistPop st.open_positions pos.position_id,
          closed_positions := st.closed_positions ++ [pos'],
          stats := statsAfterClose st.stats reason q }
      ∧ pos'.status = PositionStatus.closed
      ∧ pos'.exit_reason = some reason
      ∧ pos'.position_id = pos.position_id := by
  rcases gw with ⟨_ | ⟨_ | r0, rest⟩⟩
  · unfold exit_position Gateway.next
    rw [if_neg h]
    exact ⟨_, _, rfl, rfl, rfl, rfl⟩
  · rcases rest with _ | ⟨r1, rest'⟩
    · unfold exit_position Gateway.next
      rw [if_neg h]
      exact ⟨_, _, rfl, rfl, rfl, rfl⟩
    · unfold exit_position Gateway.next
      rw [if_neg h]
      exact ⟨_, _, rfl, rfl, rfl, rfl⟩
  · unfold exit_position Gateway.next
    rw [if_neg h]
    exact ⟨_, _, rfl, rfl, rfl, rfl⟩

/-- The alert notification fires exactly for `safety_liquidity` and
`safety_spread` closes (source line 378). -/
theorem exit_position_alerts (cfg : TradingConfig) (st : EngineState) (pos : Position)
    (reason : ExitReason) (book : Option OrderbookState) (now : ℚ) (gw : Gateway)
    (h : pos.status ≠ PositionStatus.closed) :
    alertEvents (exit_position cfg st pos reason book now gw).2.2
      = (if reason = ExitReason.safety_liquidity ∨ reason = ExitReason.safety_spread
         then [reason] else []) := by
  rcases gw with ⟨_ | ⟨_ | r0, rest⟩⟩
  · unfold exit_position Gateway.next
    rw [if_neg h]
    by_cases hr : reason = ExitReason.safety_liquidity ∨ reason = ExitReason.safety_spread <;>
      simp [hr, alertEvents_append, alertEvents]
  · rcases rest with _ | ⟨r1, rest'⟩ <;>
      [skip; skip] <;>
      · unfold exit_position Gateway.next
        rw [if_neg h]
        by_cases hr : reason = ExitReason.safety_liquidity ∨ reason = ExitReason.safety_spread <;>
          simp [hr, alertEvents_append, alertEvents]
  · unfold exit_position Gateway.next
    rw [if_neg h]
    by_cases hr : reason = ExitReason.safety_liquidity ∨ reason = ExitReason.safety_spread <;>
      simp [hr, alertEvents_append, alertEvents]

theorem mem_middle {l1 l3 : List Event} (e : Event) : e ∈ (l1 ++ [e]) ++ l3 := by
  simp

/-- A close always fires the position-closed notification. -/
theorem exit_position_closed_notice (cfg : TradingConfig) (st : EngineState)
    (pos : Position) (reason : ExitReason) (book : Option OrderbookState) (now : ℚ)
    (gw : Gateway) (h : pos.status ≠ PositionStatus.closed) :
    ∃ p', Event.position_closed_notice p' ∈ (exit_position cfg st pos reason book now gw).2.2
      ∧ p'.exit_reason = some reason := by
  rcases gw with ⟨_ | ⟨_ | r0, rest⟩⟩
  · unfold exit_position Gateway.next
    rw [if_neg h]
    exact ⟨_, mem_middle _, rfl⟩
  · rcases rest with _ | ⟨r1, rest'⟩ <;>
      · unfold exit_position Gateway.next
        rw [if_neg h]
        exact ⟨_, mem_middle _, rfl⟩
  · unfold exit_position Gateway.next
    rw [if_neg h]
    exact ⟨_, mem_middle _, rfl⟩

theorem orderPrices_if_alert (P : Prop) [Decidable P] (r : ExitReason) :
    orderPrices (if P then [Event.alert r] else []) = [] := by
  split <;> rfl

/-! ### C3 — exit closure under execution failure -/

/-- A thin book whose best bid 0.0107 makes the retry price rounding
visible: computed sell price 0.0106, 90% of it 0.00954, retried at
0.0095. -/
def bookC3 : OrderbookState :=
  { bids := [(107/10000, 1)], asks := [] }

/-- C3 counterexample: with best bid 0.0107 and slippage 0.005 the computed
sell price is 0.0106; on a double-null gateway the retry is submitted at
`round(0.0106 × 0.9, 4) = 0.0095`, which is *not* 90% of the computed
price (0.00954).  The claim's "retries … at 90% of that computed price" is
therefore false as stated; the retry price is additionally rounded to 4
decimals. -/
theorem exit_retry_price_counterexample :
    orderPrices (exit_position cfg0 stA posA ExitReason.forced_time (some bookC3) 100
        ⟨[none, none]⟩).2.2
      = [53/5000, 19/2000]
    ∧ (19/2000 : ℚ) ≠ (53/5000 : ℚ) * (9/10) := by
  constructor
  · norm_num [exit_position, exit_sell_price, Gateway.next, OrderbookState.best_bid,
      pyRound, roundHalfEven, bookC3, posA, cfg0, stA, orderPrices_append, orderPrices,
      orderPrices_if_alert]
  · norm_num

/-- C3 (amended): the SELL is submitted at the computed price
(bid-less-slippage or half-entry fallback, floored at 0.01, rounded to 4
decimals); a null response triggers exactly one retry at 90% of that price
*rounded to 4 decimals* and never a third attempt; in every case the
position is closed and removed from the open map, with exit_price the
response's reported price when a response arrived (the requested price if
the response omits one), else the last attempted price. -/
theorem exit_closure_under_failure (cfg : TradingConfig) (st : EngineState)
    (pos : Position) (reason : ExitReason) (book : Option OrderbookState)
    (now : ℚ) (gw : Gateway) (h : pos.status ≠ PositionStatus.closed) :
    (∀ r, (gw.next).1 = some r →
        orderPrices (exit_position cfg st pos reason book now gw).2.2
          = [exit_sell_price cfg pos book])
    ∧ ((gw.next).1 = none →
        orderPrices (exit_position cfg st pos reason book now gw).2.2
          = [exit_sell_price cfg pos book,
             pyRound (exit_sell_price cfg pos book * (9/10)) 4])
    ∧ ∃ pos',
        (exit_position cfg st pos reason book now gw).1.closed_positions
            = st.closed_positions ++ [pos']
        ∧ pos'.status = PositionStatus.closed
        ∧ alistGet? (exit_position cfg st pos reason book now gw).1.open_positions
            pos.position_id = none
        ∧ (∀ r q, (gw.next).1 = some r → r.price = some q →
            pos'.exit_price = some q)
        ∧ (∀ r, (gw.next).1 = some r → r.price = none →
            pos'.exit_price = some (exit_sell_price cfg pos book))
        ∧ (∀ r q, (gw.next).1 = none → ((gw.next).2.next).1 = some r →
            r.price = some q → pos'.exit_price = some q)
        ∧ (∀ r, (gw.next).1 = none → ((gw.next).2.next).1 = some r →
            r.price = none →
            pos'.exit_price = some (pyRound (exit_sell_price cfg pos book * (9/10)) 4))
        ∧ ((gw.next).1 = none → ((gw.next).2.next).1 = none →
            pos'.exit_price = some (pyRound (exit_sell_price cfg pos book * (9/10)) 4)) := by
  rcases gw with ⟨_ | ⟨_ | r0, rest⟩⟩
  · unfold exit_position Gateway.next
    rw [if_neg h]
    refine ⟨?_, ?_, ⟨_, rfl, rfl, alistGet?_alistPop _ _, ?_, ?_, ?_, ?_, ?_⟩⟩
    · intro r hr; cases hr
    · intro _
      simp [orderPrices_append, orderPrices, orderPrices_if_alert]
    · intro r q hr; cases hr
    · intro r hr; cases hr
    · intro r q _ hr; cases hr
    · intro r _ hr; cases hr
    · intro _ _; rfl
  · rcases rest with _ | ⟨r1, rest'⟩
    · unfold exit_position Gateway.next
      rw [if_neg h]
      refine ⟨?_, ?_, ⟨_, rfl, rfl, alistGet?_alistPop _ _, ?_, ?_, ?_, ?_, ?_⟩⟩
      · intro r hr; cases hr
      · intro _
        simp [orderPrices_append, orderPrices, orderPrices_if_alert]
      · intro r q hr; cases hr
      · intro r hr; cases hr
      · intro r q _ hr; cases hr
      · intro r _ hr; cases hr
      · intro _ _; rfl
    · unfold exit_position Gateway.next
      rw [if_neg h]
      refine ⟨?_, ?_, ⟨_, rfl, rfl, alistGet?_alistPop _ _, ?_, ?_, ?_, ?_, ?_⟩⟩
      · intro r hr; cases hr
      · intro _
        simp [orderPrices_append, orderPrices, orderPrices_if_alert]
      · intro r q hr; cases hr
      · intro r hr; cases hr
      · intro r q _ hr hq
        cases hr
        simp [hq]
      · intro r _ hr hq
        cases hr
        simp [hq]
      · intro _ hr
        cases hr
        rfl
  · unfold exit_position Gateway.next
    rw [if_neg h]
    refine ⟨?_, ?_, ⟨_, rfl, rfl, alistGet?_alistPop _ _, ?_, ?_, ?_, ?_, ?_⟩⟩
    · intro r hr
      simp [orderPrices_append, orderPrices, orderPrices_if_alert]
    · intro hr; cases hr
    · intro r q hr hq
      cases hr
      simp [hq]
    · intro r hr hq
      cases hr
      simp [hq]
    · intro r q hr; cases hr
    · intro r hr; cases hr
    · intro hr; cases hr

/-- C3 witness: the amended exit-closure theorem applied to the concrete
double-null run of `exit_retry_price_counterexample`'s fixture. -/
theorem exit_closure_witness :
    posA.status ≠ PositionStatus.closed
    ∧ ((⟨[none, none]⟩ : Gateway).next.1 = none →
        orderPrices (exit_position cfg0 stA posA ExitReason.forced_time (some bookC3) 100
            ⟨[none, none]⟩).2.2
          = [exit_sell_price cfg0 posA (some bookC3),
             pyRound (exit_sell_price cfg0 posA (some bookC3) * (9/10)) 4]) := by
  have h : posA.status ≠ PositionStatus.closed := by
    simp [posA]
  exact ⟨h, (exit_closure_under_failure cfg0 stA posA ExitReason.forced_time
    (some bookC3) 100 ⟨[none, none]⟩ h).2.1⟩

/-! ### C9 — safety-exit alerting -/

/-- A gateway response reporting a fill at 0.01. -/
def respSell : OrderResp :=
  { price := some (1/100), filled := some 500, order_id := some "o2", orderID := none }

/-- C9 counterexample: a position closed with reason `safety_stall` — a
safety-category reason per the spec's own definition — fires no alert
notification: source line 378 tests only `SAFETY_LIQUIDITY` and
`SAFETY_SPREAD`. -/
theorem safety_stall_no_alert_counterexample :
    alertEvents (exit_position cfg0 stA posA ExitReason.safety_stall (some bookA) 100
        ⟨[some respSell]⟩).2.2 = []
    ∧ (exit_position cfg0 stA posA ExitReason.safety_stall (some bookA) 100
          ⟨[some respSell]⟩).1.closed_positions.map
        (fun p => (p.status, p.exit_reason))
      = [(PositionStatus.closed, some ExitReason.safety_stall)] := by
  have h : posA.status ≠ PositionStatus.closed := by simp [posA]
  constructor
  · rw [exit_position_alerts cfg0 stA posA ExitReason.safety_stall (some bookA) 100
      ⟨[some respSell]⟩ h]
    simp
  · simp only [exit_position, Gateway.next]
    rw [if_neg h]
    simp [stA, posA, respSell]

/-- C9 (amended): a close fires the alert notification exactly when the
reason is `safety_liquidity` or `safety_spread`; `safety_stall`,
`profit_target`, `forced_time` and `manual` closes fire only the
position-closed notification. -/
theorem alert_scope_liquidity_spread (cfg : TradingConfig) (st : EngineState)
    (pos : Position) (reason : ExitReason) (book : Option OrderbookState)
    (now : ℚ) (gw : Gateway) (h : pos.status ≠ PositionStatus.closed) :
    alertEvents (exit_position cfg st pos reason book now gw).2.2
      = (if reason = ExitReason.safety_liquidity ∨ reason = ExitReason.safety_spread
         then [reason] else [])
    ∧ ∃ p', Event.position_closed_notice p'
          ∈ (exit_position cfg st pos reason book now gw).2.2
        ∧ p'.exit_reason = some reason :=
  ⟨exit_position_alerts cfg st pos reason book now gw h,
   exit_position_closed_notice cfg st pos reason book now gw h⟩

/-- C9 witness: the alert-scope theorem applied to a concrete
`safety_liquidity` close. -/
theorem alert_scope_witness :
    posA.status ≠ PositionStatus.closed
    ∧ alertEvents (exit_position cfg0 stA posA ExitReason.safety_liquidity (some bookA)
          100 ⟨[some respSell]⟩).2.2
      = (if ExitReason.safety_liquidity = ExitReason.safety_liquidity
            ∨ ExitReason.safety_liquidity = ExitReason.safety_spread
         then [ExitReason.safety_liquidity] else []) := by
  have h : posA.status ≠ PositionStatus.closed := by simp [posA]
  exact ⟨h, (alert_scope_liquidity_spread cfg0 stA posA ExitReason.safety_liquidity
    (some bookA) 100 ⟨[some respSell]⟩ h).1⟩

/-! ### C8 — stats frame condition -/

theorem append_singleton_ne {α : Type} (l : List α) (x : α) : l ++ [x] ≠ l := by
  intro heq
  have := congrArg List.length heq
  simp at this

/-- `_enter_position` changes at most `total_volume_usd` among the stats
fields. -/
theorem enter_position_stats (cfg : TradingConfig) (st : EngineState) (market : Market)
    (tok outc : String) (ask sh now : ℚ) (gw : Gateway) (id : String) :
    ∃ v, (enter_position cfg st market tok outc ask sh now gw id).1.stats
      = { st.stats with total_volume_usd := v } := by
  rcases gw with ⟨_ | ⟨_ | r, rest⟩⟩
  · exact ⟨st.stats.total_volume_usd, rfl⟩
  · exact ⟨st.stats.total_volume_usd, rfl⟩
  · simp only [enter_position, Gateway.next]
    split
    · exact ⟨st.stats.total_volume_usd, rfl⟩
    · exact ⟨_, rfl⟩

/-- The stats block on close, written out field by field. -/
theorem statsAfterClose_spec (s : BotStats) (reason : ExitReason) (q : ℚ) :
    statsAfterClose s reason q =
      { total_trades := s.total_trades + 1,
        winning_trades := s.winning_trades + (if 0 < q then 1 else 0),
        losing_trades := s.losing_trades + (if 0 < q then 0 else 1),
        total_pnl_usd := s.total_pnl_usd + q,
        total_volume_usd := s.total_volume_usd,
        forced_exits := s.forced_exits
          + (if reason = ExitReason.forced_time then 1 else 0),
        safety_exits := s.safety_exits
          + (if reason = ExitReason.safety_liquidity ∨ reason = ExitReason.safety_spread
                ∨ reason = ExitReason.safety_stall then 1 else 0) } := by
  cases reason <;> by_cases hq : 0 < q <;> simp [statsAfterClose, hq]

/-- A tick-path exit evaluation that closes nothing leaves the stats
unchanged. -/
theorem check_exit_step_stats (cfg : TradingConfig) (tok : String)
    (book : OrderbookState) (now : ℚ) (st : EngineState) (gw : Gateway)
    (pos : Position) (st' : EngineState) (gw' : Gateway) (evs : List Event)
    (hok : check_exit_step cfg tok book now st gw pos = .ok (st', gw', evs))
    (hnc : st'.closed_positions = st.closed_positions) :
    st'.stats = st.stats := by
  by_cases ht : pos.token_id ≠ tok
  · unfold check_exit_step at hok
    rw [if_pos ht] at hok
    cases hok; rfl
  · by_cases hs : pos.status = PositionStatus.pending_exit ∨ pos.status = PositionStatus.closed
    · unfold check_exit_step at hok
      rw [if_neg ht, if_pos hs] at hok
      cases hok; rfl
    · have hcl : pos.status ≠ PositionStatus.closed := fun hc => hs (Or.inr hc)
      unfold check_exit_step at hok
      rw [if_neg ht, if_neg hs] at hok
      rcases hm : alistGet? st.active_markets pos.market_id with _ | market
      · rw [hm] at hok
        cases hok; rfl
      · simp only [hm] at hok
        split at hok
        · cases hok
        · cases hok; rfl
        · injection hok with h3
          have hst : st' = (exit_position cfg st pos _ (some book) now gw).1 :=
            (congrArg Prod.fst h3).symm
          obtain ⟨p', q, hspec, -, -, -⟩ :=
            exit_position_spec cfg st pos _ (some book) now gw hcl
          rw [hspec] at hst
          rw [hst] at hnc
          exact absurd hnc (append_singleton_ne _ _)

/-- A timer-pass step that closes nothing leaves the stats unchanged. -/
theorem monitor_step_stats (cfg : TradingConfig) (now : ℚ) (st : EngineState)
    (gw : Gateway) (pos : Position)
    (hnc : (monitor_step cfg now st gw pos).1.closed_positions = st.closed_positions) :
    (monitor_step cfg now st gw pos).1.stats = st.stats := by
  by_cases hp : pos.status = PositionStatus.pending_exit
  · have hms : monitor_step cfg now st gw pos = (st, gw, []) := by
      unfold monitor_step; rw [if_pos hp]
    rw [hms]
  · rcases hm : alistGet? st.active_markets pos.market_id with _ | m
    · have hms : monitor_step cfg now st gw pos
          = exit_position cfg st pos ExitReason.forced_time none now gw := by
        unfold monitor_step; rw [if_neg hp]; rw [hm]
      rw [hms] at hnc ⊢
      by_cases hcl : pos.status = PositionStatus.closed
      · rw [exit_position_skip cfg st pos _ none now gw hcl]
      · obtain ⟨p', q, hspec, -, -, -⟩ :=
          exit_position_spec cfg st pos ExitReason.forced_time none now gw hcl
        rw [hspec] at hnc
        exact absurd hnc (append_singleton_ne _ _)
    · by_cases h1 : m.seconds_to_close now ≤ cfg.forced_exit_seconds_before_close
      · have hms : monitor_step cfg now st gw pos
            = exit_position cfg st pos ExitReason.forced_time none now gw := by
          unfold monitor_step; rw [if_neg hp]; simp only [hm]; rw [if_pos h1]
        rw [hms] at hnc ⊢
        by_cases hcl : pos.status = PositionStatus.closed
        · rw [exit_position_skip cfg st pos _ none now gw hcl]
        · obtain ⟨p', q, hspec, -, -, -⟩ :=
            exit_position_spec cfg st pos ExitReason.forced_time none now gw hcl
          rw [hspec] at hnc
          exact absurd hnc (append_singleton_ne _ _)
      · by_cases h2 : m.seconds_to_close now < 0
        · have hms : monitor_step cfg now st gw pos
              = exit_position cfg st pos ExitReason.forced_time none now gw := by
            unfold monitor_step; rw [if_neg hp]; simp only [hm]
            rw [if_neg h1, if_pos h2]
          rw [hms] at hnc ⊢
          by_cases hcl : pos.status = PositionStatus.closed
          · rw [exit_position_skip cfg st pos _ none now gw hcl]
          · obtain ⟨p', q, hspec, -, -, -⟩ :=
              exit_position_spec cfg st pos ExitReason.forced_time none now gw hcl
            rw [hspec] at hnc
            exact absurd hnc (append_singleton_ne _ _)
        · have hms : monitor_step cfg now st gw pos = (st, gw, []) := by
            unfold monitor_step; rw [if_neg hp]; simp only [hm]
            rw [if_neg h1, if_neg h2]
          rw [hms]

/-- An entry evaluation changes at most `total_volume_usd` among the stats
fields. -/
theorem evaluate_entry_stats (cfg : TradingConfig) (st : EngineState) (tok : String)
    (book : OrderbookState) (now : ℚ) (gw : Gateway) (id : String)
    (st' : EngineState) (gw' : Gateway) (evs : List Event)
    (hok : evaluate_entry cfg st tok book now gw id = .ok (st', gw', evs)) :
    ∃ v, st'.stats = { st.stats with total_volume_usd := v } := by
  unfold evaluate_entry at hok
  rcases hf : find_market_by_token st.active_markets tok with _ | p
  · rw [hf] at hok
    cases hok; exact ⟨st.stats.total_volume_usd, rfl⟩
  · obtain ⟨market, outcome⟩ := p
    simp only [hf] at hok
    by_cases hpau : market.paused = true
    · rw [if_pos hpau] at hok
      cases hok; exact ⟨st.stats.total_volume_usd, rfl⟩
    · rw [if_neg hpau] at hok
      by_cases h30 : market.seconds_to_close now < cfg.forced_exit_seconds_before_close + 30
      · rw [if_pos h30] at hok
        cases hok; exact ⟨st.stats.total_volume_usd, rfl⟩
      · rw [if_neg h30] at hok
        by_cases hhas : has_position_in_market st market.market_id = true
        · rw [if_pos hhas] at hok
          cases hok; exact ⟨st.stats.total_volume_usd, rfl⟩
        · rw [if_neg hhas] at hok
          by_cases hcap : cfg.max_concurrent_positions ≤ st.open_positions.length
          · rw [if_pos hcap] at hok
            cases hok; exact ⟨st.stats.total_volume_usd, rfl⟩
          · rw [if_neg hcap] at hok
            by_cases hask : book.best_ask ≤ 0 ∨ cfg.buy_probability_threshold < book.best_ask
            · rw [if_pos hask] at hok
              cases hok; exact ⟨st.stats.total_volume_usd, rfl⟩
            · rw [if_neg hask] at hok
              have hps : passes_safety_checks cfg book
                  = Except.error PyError.attributeErrorSpreadPct := rfl
              simp only [hps] at hok
              cases hok

/-- C8 counterexample: `_enter_position` (position opening, not a close)
mutates the `BotStats` field `total_volume_usd` (source line 202): a
successful concrete entry moves it from 0 to 10. -/
theorem stats_volume_mutated_at_open :
    (enter_position cfg0 stE mA ("tokY") ("YES") (1/50) 500 0 ⟨[some respFillE]⟩
        ("p9")).1.stats.total_volume_usd = 10
    ∧ stE.stats.total_volume_usd = 0 := by
  constructor
  · norm_num [enter_position, Gateway.next, respFillE, cfg0, stE, mA,
      Position.cost_basis, pyRound, roundHalfEven]
  · rfl

/-- C8 (amended): market registration/removal/pause and any entry or exit
evaluation that does not open or close a position leave every `BotStats`
field unchanged; position *opening* changes exactly `total_volume_usd`;
the close transition changes every field except `total_volume_usd`
according to the exit reason and realized PnL; and `win_rate` is
winning/total×100 with 0 for no trades. -/
theorem stats_frame_condition :
    (∀ (st : EngineState) (m : Market), (register_market st m).stats = st.stats)
    ∧ (∀ (st : EngineState) (mid : String), (remove_market st mid).stats = st.stats)
    ∧ (∀ (st : EngineState) (mid : String), (cmd_pausemarket st mid).stats = st.stats)
    ∧ (∀ (cfg : TradingConfig) (st : EngineState) (market : Market)
        (tok outc : String) (ask sh now : ℚ) (gw : Gateway) (id : String),
        ∃ v, (enter_position cfg st market tok outc ask sh now gw id).1.stats
          = { st.stats with total_volume_usd := v })
    ∧ (∀ (cfg : TradingConfig) (st : EngineState) (tok : String)
        (book : OrderbookState) (now : ℚ) (gw : Gateway) (id : String)
        (st' : EngineState) (gw' : Gateway) (evs : List Event),
        evaluate_entry cfg st tok book now gw id = .ok (st', gw', evs) →
        ∃ v, st'.stats = { st.stats with total_volume_usd := v })
    ∧ (∀ (cfg : TradingConfig) (tok : String) (book : OrderbookState) (now : ℚ)
        (st : EngineState) (gw : Gateway) (pos : Position) (st' : EngineState)
        (gw' : Gateway) (evs : List Event),
        check_exit_step cfg tok book now st gw pos = .ok (st', gw', evs) →
        st'.closed_positions = st.closed_positions → st'.stats = st.stats)
    ∧ (∀ (cfg : TradingConfig) (now : ℚ) (st : EngineState) (gw : Gateway)
        (pos : Position),
        (monitor_step cfg now st gw pos).1.closed_positions = st.closed_positions →
        (monitor_step cfg now st gw pos).1.stats = st.stats)
    ∧ (∀ (cfg : TradingConfig) (st : EngineState) (pos : Position)
        (reason : ExitReason) (book : Option OrderbookState) (now : ℚ) (gw : Gateway),
        pos.status ≠ PositionStatus.closed →
        ∃ q, (exit_position cfg st pos reason book now gw).1.stats
          = statsAfterClose st.stats reason q)
    ∧ (∀ (s : BotStats) (reason : ExitReason) (q : ℚ),
        statsAfterClose s reason q =
          { total_trades := s.total_trades + 1,
            winning_trades := s.winning_trades + (if 0 < q then 1 else 0),
            losing_trades := s.losing_trades + (if 0 < q then 0 else 1),
            total_pnl_usd := s.total_pnl_usd + q,
            total_volume_usd := s.total_volume_usd,
            forced_exits := s.forced_exits
              + (if reason = ExitReason.forced_time then 1 else 0),
            safety_exits := s.safety_exits
              + (if reason = ExitReason.safety_liquidity
                    ∨ reason = ExitReason.safety_spread
                    ∨ reason = ExitReason.safety_stall then 1 else 0) })
    ∧ (∀ s : BotStats, (s.total_trades = 0 → s.win_rate = 0)
        ∧ (s.total_trades ≠ 0 →
            s.win_rate = (s.winning_trades : ℚ) / (s.total_trades : ℚ) * 100)) := by
  refine ⟨fun st m => rfl, fun st mid => rfl, ?_, ?_, ?_, ?_, ?_, ?_, ?_, ?_⟩
  · intro st mid
    rcases hm : alistGet? st.active_markets mid with _ | m <;>
      simp [cmd_pausemarket, hm]
  · exact enter_position_stats
  · exact evaluate_entry_stats
  · exact check_exit_step_stats
  · exact monitor_step_stats
  · intro cfg st pos reason book now gw h
    obtain ⟨p', q, hspec, -, -, -⟩ := exit_position_spec cfg st pos reason book now gw h
    exact ⟨q, by rw [hspec]⟩
  · exact statsAfterClose_spec
  · intro s
    constructor
    · intro h
      unfold BotStats.win_rate
      rw [if_pos h]
    · intro h
      unfold BotStats.win_rate
      rw [if_neg h]

/-- C8 witness: the amended frame theorem applied to a concrete close: the
stats of a profit-target close of `posA` move by `statsAfterClose`. -/
theorem stats_frame_witness :
    posA.status ≠ PositionStatus.closed
    ∧ ∃ q, (exit_position cfg0 stA posA ExitReason.profit_target none 100 ⟨[]⟩).1.stats
        = statsAfterClose stA.stats ExitReason.profit_target q := by
  have h : posA.status ≠ PositionStatus.closed := by simp [posA]
  exact ⟨h, stats_frame_condition.2.2.2.2.2.2.2.1 cfg0 stA posA
    ExitReason.profit_target none 100 ⟨[]⟩ h⟩

/-! ### C6 — idempotent skip -/

/-- C6: invoking either exit evaluator on a `PENDING_EXIT` or `CLOSED`
position is a complete no-op: state, gateway and event list are untouched.
The tick path skips via its status guard; the timer path skips
`PENDING_EXIT` via its guard and `CLOSED` via the guard at the top of
`_exit_position`. -/
theorem idempotent_skip (cfg : TradingConfig) (tok : String) (book : OrderbookState)
    (now : ℚ) (st : EngineState) (gw : Gateway) (pos : Position)
    (h : pos.status = PositionStatus.pending_exit ∨ pos.status = PositionStatus.closed) :
    check_exit_step cfg tok book now st gw pos = .ok (st, gw, [])
    ∧ monitor_step cfg now st gw pos = (st, gw, []) := by
  constructor
  · by_cases ht : pos.token_id ≠ tok
    · unfold check_exit_step; rw [if_pos ht]
    · unfold check_exit_step; rw [if_neg ht, if_pos h]
  · rcases h with h | h
    · unfold monitor_step; rw [if_pos h]
    · have hskip := exit_position_skip cfg st pos ExitReason.forced_time none now gw h
      have hp : pos.status ≠ PositionStatus.pending_exit := by rw [h]; simp
      rcases hm : alistGet? st.active_markets pos.market_id with _ | m
      · have hms : monitor_step cfg now st gw pos
            = exit_position cfg st pos ExitReason.forced_time none now gw := by
          unfold monitor_step; rw [if_neg hp, hm]
        rw [hms]; exact hskip
      · by_cases h1 : m.seconds_to_close now ≤ cfg.forced_exit_seconds_before_close
        · have hms : monitor_step cfg now st gw pos
              = exit_position cfg st pos ExitReason.forced_time none now gw := by
            unfold monitor_step; rw [if_neg hp]; simp only [hm]; rw [if_pos h1]
          rw [hms]; exact hskip
        · by_cases h2 : m.seconds_to_close now < 0
          · have hms : monitor_step cfg now st gw pos
                = exit_position cfg st pos ExitReason.forced_time none now gw := by
              unfold monitor_step; rw [if_neg hp]; simp only [hm]
              rw [if_neg h1, if_pos h2]
            rw [hms]; exact hskip
          · unfold monitor_step; rw [if_neg hp]; simp only [hm]
            rw [if_neg h1, if_neg h2]

/-- A `PENDING_EXIT` copy of `posA`. -/
def posPending : Position :=
  { posA with status := PositionStatus.pending_exit }

/-- C6 witness: the idempotent-skip theorem applied to a concrete
`PENDING_EXIT` position. -/
theorem idempotent_skip_witness :
    (posPending.status = PositionStatus.pending_exit
      ∨ posPending.status = PositionStatus.closed)
    ∧ check_exit_step cfg0 ("tokY") bookA 100 stA ⟨[]⟩ posPending
        = .ok (stA, ⟨[]⟩, [])
    ∧ monitor_step cfg0 100 stA ⟨[]⟩ posPending = (stA, ⟨[]⟩, []) := by
  have h : posPending.status = PositionStatus.pending_exit
      ∨ posPending.status = PositionStatus.closed := Or.inl rfl
  exact ⟨h, (idempotent_skip cfg0 ("tokY") bookA 100 stA ⟨[]⟩ posPending h).1,
    (idempotent_skip cfg0 ("tokY") bookA 100 stA ⟨[]⟩ posPending h).2⟩

/-! ### C7 — orderbook size invariant -/

/-- The operations that reach an `OrderbookState`: incremental deltas
(`apply_delta`) and full snapshots (`_handle_book_snapshot`). -/
inductive BookOp
  | delta (side : String) (price size : ℚ)
  | snapshot (bids asks : List (ℚ × ℚ))

/-- Apply one feed operation to the local book. -/
def applyBookOp (b : OrderbookState) : BookOp → OrderbookState
  | .delta side p s => b.apply_delta side p s
  | .snapshot bids asks => applySnapshot bids asks

/-- The book reached from the initial empty replica by a feed history. -/
def applyBookOps (ops : List BookOp) : OrderbookState :=
  ops.foldl applyBookOp { bids := [], asks := [] }

/-- Every size stored on either side is non-negative. -/
def sizesNonneg (b : OrderbookState) : Prop :=
  (∀ x ∈ b.bids, 0 ≤ x.2) ∧ (∀ x ∈ b.asks, 0 ≤ x.2)

/-- A feed operation carrying no negative size. -/
def BookOp.sizeOK : BookOp → Prop
  | .delta _ _ s => 0 ≤ s
  | .snapshot _ _ => True

theorem mem_alistSet {α β : Type} [DecidableEq α] {m : List (α × β)} {k : α} {v : β} :
    ∀ x ∈ alistSet m k v, x ∈ m ∨ x = (k, v) := by
  intro x hx
  unfold alistSet at hx
  split at hx
  · obtain ⟨y, hy, hxy⟩ := List.mem_map.mp hx
    by_cases hk : y.1 = k
    · right; rw [← hxy]; simp [hk]
    · left
      rw [← hxy]
      simpa [hk] using hy
  · rcases List.mem_append.mp hx with hmem | hmem
    · left; exact hmem
    · right; simpa using hmem

theorem loadLevels_nonneg :
    ∀ (levels acc : List (ℚ × ℚ)), (∀ x ∈ acc, 0 ≤ x.2) →
      ∀ x ∈ loadLevels levels acc, 0 ≤ x.2 := by
  intro levels
  induction levels with
  | nil =>
    intro acc hacc x hx
    exact hacc x hx
  | cons hd tl ih =>
    intro acc hacc x hx
    obtain ⟨p, s⟩ := hd
    rw [loadLevels] at hx
    refine ih _ ?_ x hx
    intro y hy
    by_cases hs : s > 0
    · rw [if_pos hs] at hy
      rcases mem_alistSet y hy with hmem | hmem
      · exact hacc y hmem
      · rw [hmem]; exact le_of_lt hs
    · rw [if_neg hs] at hy
      exact hacc y hy

theorem apply_delta_nonneg (b : OrderbookState) (side : String) (p s : ℚ)
    (hb : sizesNonneg b) (hs : 0 ≤ s) :
    sizesNonneg (b.apply_delta side p s) := by
  unfold OrderbookState.apply_delta
  by_cases hbuy : sideIsBuy side = true
  · rw [if_pos hbuy]
    by_cases h0 : s = 0
    · rw [if_pos h0]
      exact ⟨fun x hx => hb.1 x (List.mem_of_mem_filter hx), hb.2⟩
    · rw [if_neg h0]
      refine ⟨fun x hx => ?_, hb.2⟩
      rcases mem_alistSet x hx with hmem | hmem
      · exact hb.1 x hmem
      · rw [hmem]; exact hs
  · rw [if_neg hbuy]
    by_cases h0 : s = 0
    · rw [if_pos h0]
      exact ⟨hb.1, fun x hx => hb.2 x (List.mem_of_mem_filter hx)⟩
    · rw [if_neg h0]
      refine ⟨hb.1, fun x hx => ?_⟩
      rcases mem_alistSet x hx with hmem | hmem
      · exact hb.2 x hmem
      · rw [hmem]; exact hs

theorem applySnapshot_nonneg (bids asks : List (ℚ × ℚ)) :
    sizesNonneg (applySnapshot bids asks) := by
  constructor
  · exact loadLevels_nonneg bids [] (by intro x hx; cases hx)
  · exact loadLevels_nonneg asks [] (by intro x hx; cases hx)

theorem foldl_bookOps_nonneg :
    ∀ (ops : List BookOp) (b : OrderbookState), sizesNonneg b →
      (∀ op ∈ ops, op.sizeOK) → sizesNonneg (ops.foldl applyBookOp b) := by
  intro ops
  induction ops with
  | nil =>
    intro b hb _
    exact hb
  | cons op rest ih =>
    intro b hb hops
    rw [List.foldl_cons]
    refine ih _ ?_ (fun o ho => hops o (List.mem_cons_of_mem _ ho))
    cases op with
    | delta side p s =>
      exact apply_delta_nonneg b side p s hb (hops _ (List.mem_cons_self _ _))
    | snapshot bs as => exact applySnapshot_nonneg bs as

/-- C7 counterexample: `apply_delta` stores a negative size verbatim — the
size-0-removes rule holds, but a delta of size −1 on the ask side yields a
book whose stored size is negative, so "all sizes are non-negative" fails
for unrestricted delta sequences. -/
theorem orderbook_negative_size_counterexample :
    (applyBookOps [BookOp.delta ("SELL") (1/2) (-1)]).asks = [(1/2, -1)]
    ∧ ¬ (0 ≤ (-1 : ℚ)) := by
  constructor
  · have hside : sideIsBuy ("SELL") = false := by rfl
    show (OrderbookState.apply_delta ⟨[], []⟩ ("SELL") (1/2) (-1)).asks = [(1/2, -1)]
    unfold OrderbookState.apply_delta
    rw [hside]
    norm_num [alistSet]
  · norm_num

/-- C7 (amended): a delta of size exactly 0 removes the targeted level
from the given side, and every book reachable from the empty replica by
snapshots and deltas *of non-negative size* stores only non-negative
sizes (snapshots additionally drop non-positive levels on arrival). -/
theorem orderbook_size_invariant :
    (∀ (b : OrderbookState) (side : String) (p : ℚ),
        (sideIsBuy side = true →
          alistGet? (b.apply_delta side p 0).bids p = none)
        ∧ (sideIsBuy side = false →
          alistGet? (b.apply_delta side p 0).asks p = none))
    ∧ (∀ ops : List BookOp, (∀ op ∈ ops, op.sizeOK) →
        sizesNonneg (applyBookOps ops)) := by
  constructor
  · intro b side p
    constructor
    · intro hbuy
      unfold OrderbookState.apply_delta
      rw [if_pos hbuy, if_pos rfl]
      exact alistGet?_alistPop _ _
    · intro hbuy
      unfold OrderbookState.apply_delta
      rw [if_neg (by simp [hbuy]), if_pos rfl]
      exact alistGet?_alistPop _ _
  · intro ops hops
    exact foldl_bookOps_nonneg ops _
      ⟨(by intro x hx; cases hx), (by intro x hx; cases hx)⟩ hops

/-- C7 witness: the size invariant applied to a concrete history of a
positive delta, a snapshot, and a level removal. -/
theorem orderbook_size_invariant_witness :
    (∀ op ∈ [BookOp.delta ("BUY") (1/2) 3, BookOp.snapshot [(1/4, 5)] [],
        BookOp.delta ("BUY") (1/4) 0], op.sizeOK)
    ∧ sizesNonneg (applyBookOps [BookOp.delta ("BUY") (1/2) 3,
        BookOp.snapshot [(1/4, 5)] [], BookOp.delta ("BUY") (1/4) 0]) := by
  have h : ∀ op ∈ [BookOp.delta ("BUY") (1/2) 3, BookOp.snapshot [(1/4, 5)] [],
      BookOp.delta ("BUY") (1/4) 0], op.sizeOK := by
    intro op hop
    fin_cases hop
    · norm_num [BookOp.sizeOK]
    · trivial
    · norm_num [BookOp.sizeOK]
  exact ⟨h, orderbook_size_invariant.2 _ h⟩

/-! ### C10 — pausing never closes -/

/-- No position anywhere in the state carries the `market_paused` exit
reason. -/
def no_market_paused_reason (st : EngineState) : Prop :=
  (∀ kv ∈ st.open_positions, kv.2.exit_reason ≠ some ExitReason.market_paused)
  ∧ (∀ p ∈ st.closed_positions, p.exit_reason ≠ some ExitReason.market_paused)

theorem determine_exit_reason_ne_paused (cfg : TradingConfig) (pos : Position)
    (market : Market) (book : OrderbookState) (now : ℚ) (r : ExitReason)
    (hd : determine_exit_reason cfg pos market book now = .ok (some r)) :
    r ≠ ExitReason.market_paused := by
  simp only [determine_exit_reason] at hd
  by_cases h1 : market.seconds_to_close now ≤ cfg.forced_exit_seconds_before_close
  · rw [if_pos h1] at hd
    cases hd; simp
  · rw [if_neg h1] at hd
    by_cases h2 : market.seconds_to_close now ≤ 0
    · rw [if_pos h2] at hd
      cases hd; simp
    · rw [if_neg h2] at hd
      by_cases h3 : book.bid_liquidity 5 < cfg.safety_exit_liquidity_threshold
      · rw [if_pos h3] at hd
        cases hd; simp
      · rw [if_neg h3] at hd
        have hsp : book.spread_pct = Except.error PyError.attributeErrorSpreadPct := rfl
        simp only [hsp] at hd
        cases hd

theorem exit_position_no_paused (cfg : TradingConfig) (st : EngineState)
    (pos : Position) (reason : ExitReason) (book : Option OrderbookState) (now : ℚ)
    (gw : Gateway) (hr : reason ≠ ExitReason.market_paused)
    (hinv : no_market_paused_reason st) :
    no_market_paused_reason (exit_position cfg st pos reason book now gw).1 := by
  by_cases hcl : pos.status = PositionStatus.closed
  · rw [exit_position_skip cfg st pos reason book now gw hcl]; exact hinv
  · obtain ⟨p', q, hspec, -, hreason, -⟩ :=
      exit_position_spec cfg st pos reason book now gw hcl
    rw [hspec]
    constructor
    · intro kv hkv
      exact hinv.1 kv (List.mem_of_mem_filter hkv)
    · intro p hp
      rcases List.mem_append.mp hp with hmem | hmem
      · exact hinv.2 p hmem
      · rw [List.mem_singleton.mp hmem, hreason]
        intro hc
        exact hr (Option.some.inj hc)

theorem enter_position_no_paused (cfg : TradingConfig) (st : EngineState)
    (market : Market) (tok outc : String) (ask sh now : ℚ) (gw : Gateway)
    (id : String) (hinv : no_market_paused_reason st) :
    no_market_paused_reason (enter_position cfg st market tok outc ask sh now gw id).1 := by
  rcases gw with ⟨_ | ⟨_ | r, rest⟩⟩
  · exact hinv
  · exact hinv
  · simp only [enter_position, Gateway.next]
    split
    · exact hinv
    · refine ⟨fun kv hkv => ?_, hinv.2⟩
      rcases mem_alistSet kv hkv with hmem | hmem
      · exact hinv.1 kv hmem
      · rw [hmem]; simp

theorem check_exit_step_no_paused (cfg : TradingConfig) (tok : String)
    (book : OrderbookState) (now : ℚ) (st : EngineState) (gw : Gateway)
    (pos : Position) (st' : EngineState) (gw' : Gateway) (evs : List Event)
    (hok : check_exit_step cfg tok book now st gw pos = .ok (st', gw', evs))
    (hinv : no_market_paused_reason st) : no_market_paused_reason st' := by
  by_cases ht : pos.token_id ≠ tok
  · unfold check_exit_step at hok
    rw [if_pos ht] at hok
    cases hok; exact hinv
  · by_cases hs : pos.status = PositionStatus.pending_exit ∨ pos.status = PositionStatus.closed
    · unfold check_exit_step at hok
      rw [if_neg ht, if_pos hs] at hok
      cases hok; exact hinv
    · unfold check_exit_step at hok
      rw [if_neg ht, if_neg hs] at hok
      rcases hm : alistGet? st.active_markets pos.market_id with _ | market
      · rw [hm] at hok
        cases hok; exact hinv
      · simp only [hm] at hok
        split at hok
        · cases hok
        · cases hok; exact hinv
        · rename_i r hd
          injection hok with h3
          have hst : st' = (exit_position cfg st pos r (some book) now gw).1 :=
            (congrArg Prod.fst h3).symm
          rw [hst]
          exact exit_position_no_paused cfg st pos r (some book) now gw
            (determine_exit_reason_ne_paused cfg pos market book now r hd) hinv

theorem check_exit_go_no_paused (cfg : TradingConfig) (tok : String)
    (book : OrderbookState) (now : ℚ) :
    ∀ (ps : List Position) (st : EngineState) (gw : Gateway) (evs : List Event),
      no_market_paused_reason st →
      no_market_paused_reason (check_exit_go cfg tok book now ps st gw evs).1.1 := by
  intro ps
  induction ps with
  | nil => intro st gw evs h; exact h
  | cons p rest ih =>
    intro st gw evs h
    rw [check_exit_go]
    rcases hs : check_exit_step cfg tok book now st gw p with e | trip
    · exact h
    · obtain ⟨st', gw', evs'⟩ := trip
      exact ih st' gw' (evs ++ evs') (check_exit_step_no_paused cfg tok book now st gw p
        st' gw' evs' hs h)

theorem monitor_step_no_paused (cfg : TradingConfig) (now : ℚ) (st : EngineState)
    (gw : Gateway) (pos : Position) (hinv : no_market_paused_reason st) :
    no_market_paused_reason (monitor_step cfg now st gw pos).1 := by
  by_cases hp : pos.status = PositionStatus.pending_exit
  · have hms : monitor_step cfg now st gw pos = (st, gw, []) := by
      unfold monitor_step; rw [if_pos hp]
    rw [hms]; exact hinv
  · rcases hm : alistGet? st.active_markets pos.market_id with _ | m
    · have hms : monitor_step cfg now st gw pos
          = exit_position cfg st pos ExitReason.forced_time none now gw := by
        unfold monitor_step; rw [if_neg hp, hm]
      rw [hms]
      exact exit_position_no_paused cfg st pos _ none now gw (by simp) hinv
    · by_cases h1 : m.seconds_to_close now ≤ cfg.forced_exit_seconds_before_close
      · have hms : monitor_step cfg now st gw pos
            = exit_position cfg st pos ExitReason.forced_time none now gw := by
          unfold monitor_step; rw [if_neg hp]; simp only [hm]; rw [if_pos h1]
        rw [hms]
        exact exit_position_no_paused cfg st pos _ none now gw (by simp) hinv
      · by_cases h2 : m.seconds_to_close now < 0
        · have hms : monitor_step cfg now st gw pos
              = exit_position cfg st pos ExitReason.forced_time none now gw := by
            unfold monitor_step; rw [if_neg hp]; simp only [hm]
            rw [if_neg h1, if_pos h2]
          rw [hms]
          exact exit_position_no_paused cfg st pos _ none now gw (by simp) hinv
        · have hms : monitor_step cfg now st gw pos = (st, gw, []) := by
            unfold monitor_step; rw [if_neg hp]; simp only [hm]
            rw [if_neg h1, if_neg h2]
          rw [hms]; exact hinv

theorem monitor_go_no_paused (cfg : TradingConfig) (now : ℚ) :
    ∀ (ps : List Position) (st : EngineState) (gw : Gateway) (evs : List Event),
      no_market_paused_reason st →
      no_market_paused_reason (monitor_go cfg now ps st gw evs).1 := by
  intro ps
  induction ps with
  | nil => intro st gw evs h; exact h
  | cons p rest ih =>
    intro st gw evs h
    rw [monitor_go]
    exact ih _ _ _ (monitor_step_no_paused cfg now st gw p h)

theorem stop_go_no_paused (cfg : TradingConfig) (now : ℚ) :
    ∀ (ps : List Position) (st : EngineState) (gw : Gateway) (evs : List Event),
      no_market_paused_reason st →
      no_market_paused_reason (stop_go cfg now ps st gw evs).1 := by
  intro ps
  induction ps with
  | nil => intro st gw evs h; exact h
  | cons p rest ih =>
    intro st gw evs h
    rw [stop_go]
    exact ih _ _ _ (exit_position_no_paused cfg st p ExitReason.manual none now gw
      (by simp) h)

theorem evaluate_entry_no_paused (cfg : TradingConfig) (st : EngineState) (tok : String)
    (book : OrderbookState) (now : ℚ) (gw : Gateway) (id : String)
    (st' : EngineState) (gw' : Gateway) (evs : List Event)
    (hok : evaluate_entry cfg st tok book now gw id = .ok (st', gw', evs))
    (hinv : no_market_paused_reason st) : no_market_paused_reason st' := by
  unfold evaluate_entry at hok
  rcases hf : find_market_by_token st.active_markets tok with _ | p
  · rw [hf] at hok
    cases hok; exact hinv
  · obtain ⟨market, outcome⟩ := p
    simp only [hf] at hok
    by_cases hpau : market.paused = true
    · rw [if_pos hpau] at hok
      cases hok; exact hinv
    · rw [if_neg hpau] at hok
      by_cases h30 : market.seconds_to_close now < cfg.forced_exit_seconds_before_close + 30
      · rw [if_pos h30] at hok
        cases hok; exact hinv
      · rw [if_neg h30] at hok
        by_cases hhas : has_position_in_market st market.market_id = true
        · rw [if_pos hhas] at hok
          cases hok; exact hinv
        · rw [if_neg hhas] at hok
          by_cases hcap : cfg.max_concurrent_positions ≤ st.open_positions.length
          · rw [if_pos hcap] at hok
            cases hok; exact hinv
          · rw [if_neg hcap] at hok
            by_cases hask : book.best_ask ≤ 0 ∨ cfg.buy_probability_threshold < book.best_ask
            · rw [if_pos hask] at hok
              cases hok; exact hinv
            · rw [if_neg hask] at hok
              have hps : passes_safety_checks cfg book
                  = Except.error PyError.attributeErrorSpreadPct := rfl
              simp only [hps] at hok
              cases hok

/-- C10: pausing a market only blocks new entries — a paused market makes
`_evaluate_entry` return untouched state; `_determine_exit_reason` ignores
the `paused` flag entirely and can never produce `market_paused`; and no
engine operation ever records a position (open or closed) with exit reason
`market_paused`. -/
theorem pausing_never_closes :
    (∀ (cfg : TradingConfig) (st : EngineState) (tok : String) (book : OrderbookState)
        (now : ℚ) (gw : Gateway) (id : String) (m : Market) (o : String),
        find_market_by_token st.active_markets tok = some (m, o) → m.paused = true →
        evaluate_entry cfg st tok book now gw id = .ok (st, gw, []))
    ∧ (∀ (cfg : TradingConfig) (pos : Position) (market : Market)
        (book : OrderbookState) (now : ℚ) (b : Bool),
        determine_exit_reason cfg pos { market with paused := b } book now
          = determine_exit_reason cfg pos market book now)
    ∧ (∀ (cfg : TradingConfig) (pos : Position) (market : Market)
        (book : OrderbookState) (now : ℚ) (r : ExitReason),
        determine_exit_reason cfg pos market book now = .ok (some r) →
        r ≠ ExitReason.market_paused)
    ∧ (∀ (cfg : TradingConfig) (st : EngineState) (gw : Gateway) (op : EngineOp),
        no_market_paused_reason st →
        no_market_paused_reason (apply_op cfg st gw op).1) := by
  refine ⟨?_, ?_, determine_exit_reason_ne_paused, ?_⟩
  · intro cfg st tok book now gw id m o hf hpau
    unfold evaluate_entry
    simp only [hf]
    rw [if_pos hpau]
  · intro cfg pos market book now b
    rfl
  · intro cfg st gw op hinv
    cases op with
    | register m => exact hinv
    | remove mid => exact hinv
    | pause mid =>
      show no_market_paused_reason (cmd_pausemarket st mid)
      unfold cmd_pausemarket
      rcases hm : alistGet? st.active_markets mid with _ | m
      · exact hinv
      · exact hinv
    | price_update tok book now id =>
      show no_market_paused_reason (on_price_update cfg st tok book now gw id).1.1
      unfold on_price_update
      rcases hc : check_exit_conditions_for_token cfg st tok book now gw
        with ⟨⟨st1, gw1, evs⟩, err⟩
      have hmid : no_market_paused_reason st1 := by
        have hgo := check_exit_go_no_paused cfg tok book now
          (st.open_positions.map Prod.snd) st gw [] hinv
        rw [show check_exit_go cfg tok book now (st.open_positions.map Prod.snd) st gw []
            = check_exit_conditions_for_token cfg st tok book now gw from rfl, hc] at hgo
        exact hgo
      rcases err with _ | e
      · rcases he : evaluate_entry cfg st1 tok book now gw1 id with e2 | ⟨st2, gw2, evs2⟩
        · simp only [he]
          exact hmid
        · simp only [he]
          exact evaluate_entry_no_paused cfg st1 tok book now gw1 id st2 gw2 evs2 he hmid
      · exact hmid
    | monitor now =>
      exact monitor_go_no_paused cfg now (st.open_positions.map Prod.snd) st gw [] hinv
    | stopAll now =>
      exact stop_go_no_paused cfg now (st.open_positions.map Prod.snd) st gw [] hinv

/-- `mA` with the pause flag set. -/
def mPaused : Market := { mA with paused := true }

/-- Engine state tracking only the paused market. -/
def stP : EngineState :=
  { active_markets := [(("m1" : String), mPaused)],
    open_positions := [], closed_positions := [], stats := ⟨0, 0, 0, 0, 0, 0, 0⟩ }

/-- C10 witness: the pause theorem applied to a concrete paused market —
a qualifying tick on it leaves the engine untouched. -/
theorem pausing_never_closes_witness :
    find_market_by_token stP.active_markets ("tokY") = some (mPaused, "YES")
    ∧ mPaused.paused = true
    ∧ evaluate_entry cfg0 stP ("tokY") bookE 0 ⟨[]⟩ ("p9") = .ok (stP, ⟨[]⟩, []) := by
  have h1 : find_market_by_token stP.active_markets ("tokY") = some (mPaused, "YES") := by
    simp [find_market_by_token, stP, mPaused, mA]
  have h2 : mPaused.paused = true := rfl
  exact ⟨h1, h2, pausing_never_closes.1 cfg0 stP ("tokY") bookE 0 ⟨[]⟩ ("p9")
    mPaused ("YES") h1 h2⟩

/-! ### C1 — no-hold-to-expiry -/

/-- The open-position map is keyed by `position_id` (true of every state
the engine builds: insertion at line 201 uses `position.position_id`). -/
def wf_open (st : EngineState) : Prop :=
  ∀ kv ∈ st.open_positions, kv.1 = kv.2.position_id

theorem mem_alistPop_ne {α β : Type} [DecidableEq α] {m : List (α × β)} {k : α}
    {x : α × β} (h : x ∈ alistPop m k) : x ∈ m ∧ x.1 ≠ k := by
  refine ⟨List.mem_of_mem_filter h, ?_⟩
  have := List.of_mem_filter h
  simpa using this

theorem exit_position_active (cfg : TradingConfig) (st : EngineState) (pos : Position)
    (reason : ExitReason) (book : Option OrderbookState) (now : ℚ) (gw : Gateway) :
    (exit_position cfg st pos reason book now gw).1.active_markets
      = st.active_markets := by
  by_cases hcl : pos.status = PositionStatus.closed
  · rw [exit_position_skip cfg st pos reason book now gw hcl]
  · obtain ⟨p', q, hspec, -, -, -⟩ :=
      exit_position_spec cfg st pos reason book now gw hcl
    rw [hspec]

/-- One timer step either leaves the whole state untouched — and then the
position was pending, closed, or its market is alive with comfortable time
left — or removes the position's key from the open map. -/
theorem monitor_step_shape (cfg : TradingConfig) (now : ℚ) (st : EngineState)
    (gw : Gateway) (pos : Position) :
    ((monitor_step cfg now st gw pos).1 = st
      ∧ (pos.status = PositionStatus.pending_exit
          ∨ pos.status = PositionStatus.closed
          ∨ ∃ m, alistGet? st.active_markets pos.market_id = some m
              ∧ ¬ m.seconds_to_close now ≤ cfg.forced_exit_seconds_before_close
              ∧ ¬ m.seconds_to_close now < 0))
    ∨ (monitor_step cfg now st gw pos).1.open_positions
        = alistPop st.open_positions pos.position_id := by
  by_cases hp : pos.status = PositionStatus.pending_exit
  · left
    constructor
    · have hms : monitor_step cfg now st gw pos = (st, gw, []) := by
        unfold monitor_step; rw [if_pos hp]
      rw [hms]
    · exact Or.inl hp
  · by_cases hcl : pos.status = PositionStatus.closed
    · left
      have hskip := exit_position_skip cfg st pos ExitReason.forced_time none now gw hcl
      refine ⟨?_, Or.inr (Or.inl hcl)⟩
      rcases hm : alistGet? st.active_markets pos.market_id with _ | m
      · have hms : monitor_step cfg now st gw pos
            = exit_position cfg st pos ExitReason.forced_time none now gw := by
          unfold monitor_step; rw [if_neg hp, hm]
        rw [hms, hskip]
      · by_cases h1 : m.seconds_to_close now ≤ cfg.forced_exit_seconds_before_close
        · have hms : monitor_step cfg now st gw pos
              = exit_position cfg st pos ExitReason.forced_time none now gw := by
            unfold monitor_step; rw [if_neg hp]; simp only [hm]; rw [if_pos h1]
          rw [hms, hskip]
        · by_cases h2 : m.seconds_to_close now < 0
          · have hms : monitor_step cfg now st gw pos
                = exit_position cfg st pos ExitReason.forced_time none now gw := by
              unfold monitor_step; rw [if_neg hp]; simp only [hm]
              rw [if_neg h1, if_pos h2]
            rw [hms, hskip]
          · have hms : monitor_step cfg now st gw pos = (st, gw, []) := by
              unfold monitor_step; rw [if_neg hp]; simp only [hm]
              rw [if_neg h1, if_neg h2]
            rw [hms]
    · rcases hm : alistGet? st.active_markets pos.market_id with _ | m
      · right
        have hms : monitor_step cfg now st gw pos
            = exit_position cfg st pos ExitReason.forced_time none now gw := by
          unfold monitor_step; rw [if_neg hp, hm]
        obtain ⟨p', q, hspec, -, -, -⟩ :=
          exit_position_spec cfg st pos ExitReason.forced_time none now gw hcl
        rw [hms, hspec]
      · by_cases h1 : m.seconds_to_close now ≤ cfg.forced_exit_seconds_before_close
        · right
          have hms : monitor_step cfg now st gw pos
              = exit_position cfg st pos ExitReason.forced_time none now gw := by
            unfold monitor_step; rw [if_neg hp]; simp only [hm]; rw [if_pos h1]
          obtain ⟨p', q, hspec, -, -, -⟩ :=
            exit_position_spec cfg st pos ExitReason.forced_time none now gw hcl
          rw [hms, hspec]
        · by_cases h2 : m.seconds_to_close now < 0
          · right
            have hms : monitor_step cfg now st gw pos
                = exit_position cfg st pos ExitReason.forced_time none now gw := by
              unfold monitor_step; rw [if_neg hp]; simp only [hm]
              rw [if_neg h1, if_pos h2]
            obtain ⟨p', q, hspec, -, -, -⟩ :=
              exit_position_spec cfg st pos ExitReason.forced_time none now gw hcl
            rw [hms, hspec]
          · left
            have hms : monitor_step cfg now st gw pos = (st, gw, []) := by
              unfold monitor_step; rw [if_neg hp]; simp only [hm]
              rw [if_neg h1, if_neg h2]
            exact ⟨by rw [hms], Or.inr (Or.inr ⟨m, rfl, h1, h2⟩)⟩

theorem monitor_step_active (cfg : TradingConfig) (now : ℚ) (st : EngineState)
    (gw : Gateway) (pos : Position) :
    (monitor_step cfg now st gw pos).1.active_markets = st.active_markets := by
  by_cases hp : pos.status = PositionStatus.pending_exit
  · have hms : monitor_step cfg now st gw pos = (st, gw, []) := by
      unfold monitor_step; rw [if_pos hp]
    rw [hms]
  · rcases hm : alistGet? st.active_markets pos.market_id with _ | m
    · have hms : monitor_step cfg now st gw pos
          = exit_position cfg st pos ExitReason.forced_time none now gw := by
        unfold monitor_step; rw [if_neg hp, hm]
      rw [hms, exit_position_active]
    · by_cases h1 : m.seconds_to_close now ≤ cfg.forced_exit_seconds_before_close
      · have hms : monitor_step cfg now st gw pos
            = exit_position cfg st pos ExitReason.forced_time none now gw := by
          unfold monitor_step; rw [if_neg hp]; simp only [hm]; rw [if_pos h1]
        rw [hms, exit_position_active]
      · by_cases h2 : m.seconds_to_close now < 0
        · have hms : monitor_step cfg now st gw pos
              = exit_position cfg st pos ExitReason.forced_time none now gw := by
            unfold monitor_step; rw [if_neg hp]; simp only [hm]
            rw [if_neg h1, if_pos h2]
          rw [hms, exit_position_active]
        · have hms : monitor_step cfg now st gw pos = (st, gw, []) := by
            unfold monitor_step; rw [if_neg hp]; simp only [hm]
            rw [if_neg h1, if_neg h2]
          rw [hms]

/-- One tick-path step on a position either leaves the state untouched —
because the token does not match, the status guard fired, the market is
unknown, or the market read comfortably clear of the forced-exit deadline
(a returned `none` reason implies the forced-time check failed) — or it
removes the position's key from the open map. -/
theorem check_exit_step_shape (cfg : TradingConfig) (tok : String)
    (book : OrderbookState) (now : ℚ) (st : EngineState) (gw : Gateway)
    (pos : Position) (st' : EngineState) (gw' : Gateway) (evs' : List Event)
    (hok : check_exit_step cfg tok book now st gw pos = .ok (st', gw', evs')) :
    (st' = st ∧ (pos.token_id ≠ tok
        ∨ pos.status = PositionStatus.pending_exit
        ∨ pos.status = PositionStatus.closed
        ∨ alistGet? st.active_markets pos.market_id = none
        ∨ ∃ market, alistGet? st.active_markets pos.market_id = some market
            ∧ ¬ market.seconds_to_close now ≤ cfg.forced_exit_seconds_before_close))
    ∨ (st'.open_positions = alistPop st.open_positions pos.position_id
        ∧ st'.active_markets = st.active_markets) := by
  by_cases ht : pos.token_id ≠ tok
  · unfold check_exit_step at hok
    rw [if_pos ht] at hok
    cases hok
    exact Or.inl ⟨rfl, Or.inl ht⟩
  · by_cases hs : pos.status = PositionStatus.pending_exit ∨ pos.status = PositionStatus.closed
    · unfold check_exit_step at hok
      rw [if_neg ht, if_pos hs] at hok
      cases hok
      rcases hs with h | h
      · exact Or.inl ⟨rfl, Or.inr (Or.inl h)⟩
      · exact Or.inl ⟨rfl, Or.inr (Or.inr (Or.inl h))⟩
    · have hcl : pos.status ≠ PositionStatus.closed := fun hc => hs (Or.inr hc)
      unfold check_exit_step at hok
      rw [if_neg ht, if_neg hs] at hok
      rcases hm : alistGet? st.active_markets pos.market_id with _ | market
      · rw [hm] at hok
        cases hok
        exact Or.inl ⟨rfl, Or.inr (Or.inr (Or.inr (Or.inl rfl)))⟩
      · simp only [hm] at hok
        rcases hd : determine_exit_reason cfg pos market book now with e | ro
        · rw [hd] at hok
          cases hok
        · rcases ro with _ | r
          · rw [hd] at hok
            cases hok
            refine Or.inl ⟨rfl, Or.inr (Or.inr (Or.inr (Or.inr ⟨market, rfl, ?_⟩)))⟩
            intro h1
            have hforced : determine_exit_reason cfg pos market book now
                = .ok (some ExitReason.forced_time) := by
              simp only [determine_exit_reason]
              rw [if_pos h1]
            rw [hd] at hforced
            cases hforced
          · rw [hd] at hok
            injection hok with h3
            have hst : st' = (exit_position cfg st pos r (some book) now gw).1 :=
              (congrArg Prod.fst h3).symm
            obtain ⟨p', q, hspec, -, -, -⟩ :=
              exit_position_spec cfg st pos r (some book) now gw hcl
            right
            rw [hst, hspec]
            exact ⟨rfl, rfl⟩

/-- Fold invariant for the timer pass: after the pass, every surviving
OPEN/PAPER entry's market is registered and comfortably clear of both the
forced-exit deadline and expiry. -/
theorem monitor_go_inv (cfg : TradingConfig) (now : ℚ) (A : List (String × Market)) :
    ∀ (ps : List Position) (st : EngineState) (gw : Gateway) (evs : List Event),
      st.active_markets = A → wf_open st →
      (∀ kv ∈ st.open_positions,
          ((kv.2.status = PositionStatus.open_ ∨ kv.2.status = PositionStatus.paper) →
            ∃ m, alistGet? A kv.2.market_id = some m
              ∧ ¬ m.seconds_to_close now ≤ cfg.forced_exit_seconds_before_close
              ∧ ¬ m.seconds_to_close now < 0)
          ∨ kv.2 ∈ ps) →
      ∀ kv ∈ (monitor_go cfg now ps st gw evs).1.open_positions,
        (kv.2.status = PositionStatus.open_ ∨ kv.2.status = PositionStatus.paper) →
        ∃ m, alistGet? A kv.2.market_id = some m
          ∧ ¬ m.seconds_to_close now ≤ cfg.forced_exit_seconds_before_close
          ∧ ¬ m.seconds_to_close now < 0 := by
  intro ps
  induction ps with
  | nil =>
    intro st gw evs hA hwf hP kv hkv
    rcases hP kv hkv with h | h
    · exact h
    · cases h
  | cons p rest ih =>
    intro st gw evs hA hwf hP
    rw [monitor_go]
    rcases monitor_step_shape cfg now st gw p with ⟨heq, hwhy⟩ | hopen
    · refine ih (monitor_step cfg now st gw p).1 _ _ ?_ ?_ ?_
      · rw [heq]; exact hA
      · rw [heq]; exact hwf
      · rw [heq]
        intro kv hkv
        rcases hP kv hkv with h | h
        · exact Or.inl h
        · rcases List.mem_cons.mp h with h | h
          · rcases hwhy with hw | hw | hw
            · left
              intro hstat
              rw [h, hw] at hstat
              simp at hstat
            · left
              intro hstat
              rw [h, hw] at hstat
              simp at hstat
            · left
              intro _
              obtain ⟨m, hm, h1, h2⟩ := hw
              rw [h]
              rw [hA] at hm
              exact ⟨m, hm, h1, h2⟩
          · exact Or.inr h
    · refine ih (monitor_step cfg now st gw p).1 _ _ ?_ ?_ ?_
      · rw [monitor_step_active]; exact hA
      · intro kv hkv
        rw [hopen] at hkv
        exact hwf kv (mem_alistPop_ne hkv).1
      · intro kv hkv
        rw [hopen] at hkv
        obtain ⟨hmem, hne⟩ := mem_alistPop_ne hkv
        rcases hP kv hmem with hgood | hx
        · exact Or.inl hgood
        · rcases List.mem_cons.mp hx with hx | hx
          · exact absurd ((hwf kv hmem).trans (congrArg Position.position_id hx)) hne
          · exact Or.inr hx

/-- Fold invariant for a completed tick pass: every surviving OPEN/PAPER
entry on the ticked token whose market is registered read clear of the
forced-exit deadline. -/
theorem check_exit_go_inv (cfg : TradingConfig) (tok : String) (book : OrderbookState)
    (now : ℚ) (A : List (String × Market)) :
    ∀ (ps : List Position) (st : EngineState) (gw : Gateway) (evs : List Event)
      (r : EngineState × Gateway × List Event),
      st.active_markets = A → wf_open st →
      (∀ kv ∈ st.open_positions,
          ((kv.2.status = PositionStatus.open_ ∨ kv.2.status = PositionStatus.paper) →
            kv.2.token_id = tok →
            ∀ m, alistGet? A kv.2.market_id = some m →
              ¬ m.seconds_to_close now ≤ cfg.forced_exit_seconds_before_close)
          ∨ kv.2 ∈ ps) →
      check_exit_go cfg tok book now ps st gw evs = (r, none) →
      ∀ kv ∈ r.1.open_positions,
        (kv.2.status = PositionStatus.open_ ∨ kv.2.status = PositionStatus.paper) →
        kv.2.token_id = tok →
        ∀ m, alistGet? A kv.2.market_id = some m →
          ¬ m.seconds_to_close now ≤ cfg.forced_exit_seconds_before_close := by
  intro ps
  induction ps with
  | nil =>
    intro st gw evs r hA hwf hP heq kv hkv
    injection heq with hr hn
    rw [← hr] at hkv
    rcases hP kv hkv with h | h
    · exact h
    · cases h
  | cons p rest ih =>
    intro st gw evs r hA hwf hP heq
    rw [check_exit_go] at heq
    rcases hs : check_exit_step cfg tok book now st gw p with e | trip
    · rw [hs] at heq
      injection heq with hr hn
      cases hn
    · obtain ⟨st1, gw1, evs1⟩ := trip
      rw [hs] at heq
      rcases check_exit_step_shape cfg tok book now st gw p st1 gw1 evs1 hs
        with ⟨hst, hwhy⟩ | ⟨hopen, hact⟩
      · subst hst
        refine ih st1 gw1 (evs ++ evs1) r hA hwf ?_ heq
        intro kv hkv
        rcases hP kv hkv with h | h
        · exact Or.inl h
        · rcases List.mem_cons.mp h with h | h
          · rcases hwhy with hw | hw | hw | hw | hw
            · left
              intro _ htok
              rw [h] at htok
              exact (hw htok).elim
            · left
              intro hstat _
              rw [h, hw] at hstat
              simp at hstat
            · left
              intro hstat _
              rw [h, hw] at hstat
              simp at hstat
            · left
              intro _ _ m hm
              rw [h] at hm
              rw [hA] at hw
              rw [hw] at hm
              cases hm
            · left
              intro _ _ m hm
              rw [h] at hm
              obtain ⟨mk, hmk, hlt⟩ := hw
              rw [hA] at hmk
              rw [hm] at hmk
              injection hmk with hmm
              rw [hmm]
              exact hlt
          · exact Or.inr h
      · refine ih st1 gw1 (evs ++ evs1) r ?_ ?_ ?_ heq
        · rw [hact]; exact hA
        · intro kv hkv
          rw [hopen] at hkv
          exact hwf kv (mem_alistPop_ne hkv).1
        · intro kv hkv
          rw [hopen] at hkv
          obtain ⟨hmem, hne⟩ := mem_alistPop_ne hkv
          rcases hP kv hmem with hgood | hx
          · exact Or.inl hgood
          · rcases List.mem_cons.mp hx with hx | hx
            · exact absurd ((hwf kv hmem).trans (congrArg Position.position_id hx)) hne
            · exact Or.inr hx

/-- C1: after a 1-second monitor pass at time `now`, every position left
OPEN or PAPER has a registered market *strictly past the forced-exit lead
time* (hence, with a non-negative lead, strictly before resolution);
after a *completed* tick-path pass (no exception), the same holds for
every observed position (matching token, registered market).
Contrapositively, any pass that observes an OPEN/PAPER position with
`seconds_to_close ≤ forced_exit_seconds_before_close` — in particular any
with `seconds_to_close < 0` — removes it from the open map before the
pass completes. -/
theorem no_hold_to_expiry (cfg : TradingConfig) (st : EngineState) (gw : Gateway)
    (now : ℚ) (hlead : 0 ≤ cfg.forced_exit_seconds_before_close) (hwf : wf_open st) :
    (∀ kv ∈ (position_monitor_pass cfg now st gw).1.open_positions,
        (kv.2.status = PositionStatus.open_ ∨ kv.2.status = PositionStatus.paper) →
        ∃ m, alistGet? st.active_markets kv.2.market_id = some m
          ∧ cfg.forced_exit_seconds_before_close < m.seconds_to_close now
          ∧ 0 < m.seconds_to_close now)
    ∧ (∀ (tok : String) (book : OrderbookState) (r : EngineState × Gateway × List Event),
        check_exit_conditions_for_token cfg st tok book now gw = (r, none) →
        ∀ kv ∈ r.1.open_positions,
          (kv.2.status = PositionStatus.open_ ∨ kv.2.status = PositionStatus.paper) →
          kv.2.token_id = tok →
          ∀ m, alistGet? st.active_markets kv.2.market_id = some m →
            cfg.forced_exit_seconds_before_close < m.seconds_to_close now
            ∧ 0 < m.seconds_to_close now) := by
  constructor
  · intro kv hkv hstat
    have h := monitor_go_inv cfg now st.active_markets (st.open_positions.map Prod.snd)
      st gw [] rfl hwf
      (fun kv hkv => Or.inr (List.mem_map_of_mem Prod.snd hkv)) kv hkv hstat
    obtain ⟨m, hm, h1, -⟩ := h
    have hlt := not_le.mp h1
    exact ⟨m, hm, hlt, lt_of_le_of_lt hlead hlt⟩
  · intro tok book r heq kv hkv hstat htok m hm
    have h := check_exit_go_inv cfg tok book now st.active_markets
      (st.open_positions.map Prod.snd) st gw [] r rfl hwf
      (fun kv hkv => Or.inr (List.mem_map_of_mem Prod.snd hkv)) heq kv hkv hstat htok m hm
    have hlt := not_le.mp h
    exact ⟨hlt, lt_of_le_of_lt hlead hlt⟩

/-- `mA` already expired: resolution time 10 (read at `now = 100`). -/
def mExp : Market := { mA with resolution_time := 10 }

/-- Engine state holding an OPEN position on the expired market. -/
def stX : EngineState :=
  { active_markets := [(("m1" : String), mExp)],
    open_positions := [(("p1" : String), posA)],
    closed_positions := [],
    stats := ⟨0, 0, 0, 0, 0, 0, 0⟩ }

/-- C1 witness: the no-hold theorem applied to a concrete state whose only
position sits on a market 90 seconds past resolution: after the monitor
pass no OPEN/PAPER survivor can point at a market at or inside the
forced-exit lead, let alone a non-positive time-to-close. -/
theorem no_hold_to_expiry_witness :
    ((0 : ℚ) ≤ cfg0.forced_exit_seconds_before_close ∧ wf_open stX)
    ∧ ∀ kv ∈ (position_monitor_pass cfg0 100 stX ⟨[]⟩).1.open_positions,
        (kv.2.status = PositionStatus.open_ ∨ kv.2.status = PositionStatus.paper) →
        ∃ m, alistGet? stX.active_markets kv.2.market_id = some m
          ∧ cfg0.forced_exit_seconds_before_close < m.seconds_to_close 100
          ∧ 0 < m.seconds_to_close 100 := by
  have h1 : (0 : ℚ) ≤ cfg0.forced_exit_seconds_before_close := by norm_num [cfg0]
  have h2 : wf_open stX := by
    intro kv hkv
    simp only [stX, List.mem_singleton] at hkv
    rw [hkv]
    rfl
  exact ⟨⟨h1, h2⟩, (no_hold_to_expiry cfg0 stX ⟨[]⟩ 100 h1 h2).1⟩

end PolymarketBot
